import Mathlib

/-!
Verification development for the `tghook` repository: a shallow embedding of
the bot-server request handler, the Telegram API client helpers, the ad-hoc
TLS certificate provisioner and the lifecycle orchestrator, together with
theorems settling the specification claims.

Python strings are modelled at the byte level: a `str` is represented by the
list of its UTF-8 bytes (every string manipulated by the embedded code is
ASCII, where byte = code point). Fallible Python code is modelled with
`Except`/`Option`; uncaught exceptions surface as `Except.error` values.
-/

namespace Tghook

/-! ### Percent-encoding (`urllib.parse.quote` / `unquote`)

`quote(s)` keeps the unreserved bytes `A-Z a-z 0-9 _ . - ~` and the default
safe byte `/`, and writes every other byte as `%XX` with uppercase hex.
`unquote(s)` decodes every valid `%XX` escape and keeps a malformed `%`
literally. Both are modelled on byte lists. -/

/-- A byte of the always-safe set of `urllib.parse.quote`:
`A-Z`, `a-z`, `0-9`, `_`, `.`, `-`, `~`. -/
def isAlwaysSafeByte (b : Nat) : Bool :=
  (65 ≤ b && b ≤ 90) || (97 ≤ b && b ≤ 122) || (48 ≤ b && b ≤ 57) ||
    b == 95 || b == 46 || b == 45 || b == 126

/-- Safe bytes for `quote` with its default `safe='/'`: the always-safe set
plus `/` (byte 47). -/
def quoteSafeByte (b : Nat) : Bool :=
  isAlwaysSafeByte b || b == 47

/-- Uppercase hex digit of a nibble, as a byte (`0-9`, `A-F`). -/
def hexDigitByte (n : Nat) : Nat :=
  if n < 10 then 48 + n else 55 + n

/-- `urllib.parse.quote(s, safe='/')` on the UTF-8 bytes of `s`. -/
def pctQuote : List Nat → List Nat
  | [] => []
  | b :: bs =>
      (if quoteSafeByte b then [b]
       else [37, hexDigitByte (b / 16), hexDigitByte (b % 16)]) ++ pctQuote bs

/-- Value of an ASCII hex-digit byte (`unquote` accepts both cases). -/
def unhexByte (c : Nat) : Option Nat :=
  if 48 ≤ c && c ≤ 57 then some (c - 48)
  else if 65 ≤ c && c ≤ 70 then some (c - 55)
  else if 97 ≤ c && c ≤ 102 then some (c - 87)
  else none

/-- Worker of `pctUnquote`, structurally recursive on a fuel bound (any
fuel at least the list length gives the untruncated behavior). -/
def pctUnquoteGo : Nat → List Nat → List Nat
  | 0, l => l
  | _ + 1, [] => []
  | fuel + 1, b :: rest =>
      if b = 37 then
        match rest with
        | h :: l :: rest' =>
            match unhexByte h, unhexByte l with
            | some hi, some lo => (hi * 16 + lo) :: pctUnquoteGo fuel rest'
            | _, _ => 37 :: pctUnquoteGo fuel rest
        | _ => 37 :: pctUnquoteGo fuel rest
      else b :: pctUnquoteGo fuel rest

/-- `urllib.parse.unquote` on bytes: decode each valid `%XX` escape, keep a
malformed `%` literally. -/
def pctUnquote (l : List Nat) : List Nat := pctUnquoteGo l.length l

/-! ### Byte-string utilities mirroring the Python `str` operations used -/

/-- ASCII decimal digit. -/
def isDigitByte (b : Nat) : Bool := 48 ≤ b && b ≤ 57

/-- Bytes the Python `str.strip()` removes (ASCII whitespace). -/
def isSpaceByte (b : Nat) : Bool := b == 32 || (9 ≤ b && b ≤ 13)

/-- `str.strip()` on ASCII bytes. -/
def stripBytes (s : List Nat) : List Nat :=
  ((s.dropWhile isSpaceByte).reverse.dropWhile isSpaceByte).reverse

/-- `re.split` on a class of single-byte separators: every separator starts a
new (possibly empty) field. -/
def splitOnPred (p : Nat → Bool) : List Nat → List (List Nat)
  | [] => [[]]
  | b :: rest =>
      match splitOnPred p rest with
      | [] => [[]]
      | cur :: parts => if p b then [] :: cur :: parts else (b :: cur) :: parts

/-- `str.split(sep)` for a one-byte separator. -/
def splitOnByte (sep : Nat) (s : List Nat) : List (List Nat) :=
  splitOnPred (· == sep) s

/-- `str.partition(sep)` for a one-byte separator: text before the first
occurrence, whether one was found, text after it. -/
def partitionByte (sep : Nat) : List Nat → List Nat × Bool × List Nat
  | [] => ([], false, [])
  | b :: rest =>
      if b = sep then ([], true, rest)
      else
        let r := partitionByte sep rest
        (b :: r.1, r.2.1, r.2.2)

/-- `str.rpartition("]:")`: split around the last occurrence of the two-byte
separator `a b`; `none` when the separator does not occur. -/
def rpartition2 (a b : Nat) : List Nat → Option (List Nat × List Nat)
  | [] => none
  | x :: rest =>
      match rpartition2 a b rest with
      | some (pre, post) => some (x :: pre, post)
      | none =>
          match rest with
          | y :: rest' => if x = a ∧ y = b then some ([], rest') else none
          | [] => none

/-- Worker for decimal rendering: prepends the digits of `n` (low digit
pushed first) onto `acc`; fuel bounds the recursion. -/
def natToDecimalBytesGo : Nat → Nat → List Nat → List Nat
  | 0, _, acc => acc
  | fuel + 1, n, acc =>
      if n < 10 then (48 + n % 10) :: acc
      else natToDecimalBytesGo fuel (n / 10) ((48 + n % 10) :: acc)

/-- Decimal rendering of a natural number, as ASCII bytes. -/
def natToDecimalBytes (n : Nat) : List Nat :=
  natToDecimalBytesGo (n + 1) n []

/-- Lowercase hex rendering of a natural number, as ASCII bytes
(Python `'%x' % n`). -/
def natToHexBytes (n : Nat) : List Nat :=
  (Nat.toDigits 16 n).map Char.toNat

/-! ### `ipaddress.IPv4Address` / `IPv6Address` string parsing -/

/-- One dotted-quad octet (`ipaddress._parse_octet`): non-empty, decimal
digits only, at most 3 of them, no leading zero, value at most 255. -/
def parseOctet (s : List Nat) : Option Nat :=
  if s.length = 0 then none
  else if !s.all isDigitByte then none
  else if 3 < s.length then none
  else if 1 < s.length && s.head? == some 48 then none
  else
    let v := s.foldl (fun acc b => acc * 10 + (b - 48)) 0
    if v ≤ 255 then some v else none

/-- IPv4 address value from its four octets. -/
def ipv4Val (a b c d : Nat) : Nat := ((a * 256 + b) * 256 + c) * 256 + d

/-- `ipaddress.IPv4Address(s)`: exactly four `.`-separated octets; `none`
models `AddressValueError`. -/
def parseIPv4 (s : List Nat) : Option Nat :=
  match (splitOnByte 46 s).mapM parseOctet with
  | some [a, b, c, d] => some (ipv4Val a b c d)
  | _ => none

/-- `IPv4Address.compressed`: dotted-decimal rendering. -/
def ipv4Compressed (a : Nat) : List Nat :=
  natToDecimalBytes (a / 16777216 % 256) ++ [46] ++
    natToDecimalBytes (a / 65536 % 256) ++ [46] ++
    natToDecimalBytes (a / 256 % 256) ++ [46] ++
    natToDecimalBytes (a % 256)

/-- One IPv6 hextet (`ipaddress._parse_hextet`): 1 to 4 hex digits. -/
def parseHextet (s : List Nat) : Option Nat :=
  if s.length = 0 || 4 < s.length then none
  else s.foldl (fun acc c => acc.bind fun a => (unhexByte c).map fun v => a * 16 + v)
    (some 0)

/-- Step of `IPv6Address` parsing: replace a trailing embedded IPv4 address
with its two hextets. -/
def ipv6ExpandV4 (parts : List (List Nat)) : Option (List (List Nat)) :=
  match parts.getLast? with
  | none => none
  | some last =>
      if last.contains 46 then
        match parseIPv4 last with
        | none => none
        | some v =>
            some (parts.dropLast ++ [natToHexBytes (v / 65536), natToHexBytes (v % 65536)])
      else some parts

/-- Fold hextet values into an address value (16 bits each). -/
def foldHextets (vs : List Nat) : Nat :=
  vs.foldl (fun a h => a * 65536 + h) 0

/-- `ipaddress.IPv6Address(s)` (`_ip_int_from_string`): split on `:`, expand
an embedded IPv4 suffix, then handle at most one `::` gap; `none` models
`AddressValueError`. -/
def parseIPv6 (s : List Nat) : Option Nat :=
  let parts0 := splitOnByte 58 s
  if parts0.length < 3 then none
  else
    match ipv6ExpandV4 parts0 with
    | none => none
    | some parts =>
        if 9 < parts.length then none
        else
          let middle := (parts.drop 1).dropLast
          if 2 ≤ (middle.filter (fun p => p = [])).length then none
          else
            match middle.findIdx? (fun p => p = []) with
            | some i =>
                let skipIndex := i + 1
                let pHi0 := skipIndex
                let pLo0 := parts.length - skipIndex - 1
                let headEmpty := parts.head? == some []
                let lastEmpty := parts.getLast? == some []
                if headEmpty && pHi0 ≠ 1 then none
                else if lastEmpty && pLo0 ≠ 1 then none
                else
                  let pHi := if headEmpty then 0 else pHi0
                  let pLo := if lastEmpty then 0 else pLo0
                  if 8 < pHi + pLo then none
                  else
                    match (parts.take pHi).mapM parseHextet,
                        (parts.drop (parts.length - pLo)).mapM parseHextet with
                    | some hiVals, some loVals =>
                        some (foldHextets hiVals * 65536 ^ (8 - pHi) +
                          foldHextets loVals)
                    | _, _ => none
            | none =>
                if parts.length ≠ 8 then none
                else if parts.head? == some [] || parts.getLast? == some [] then none
                else (parts.mapM parseHextet).map foldHextets

/-! ### `tghook._header`: RFC 7239 `Forwarded: for=` parsing -/

/-- Result of `parse_identifier`: an obfuscated identifier string, or a
parsed IP address. -/
inductive ForwardedElem
  | obfuscated (s : List Nat)
  | ipv4 (a : Nat)
  | ipv6 (a : Nat)
deriving DecidableEq, Repr

/-- Bytes of the literal `"unknown"`. -/
def unknownBytes : List Nat := [117, 110, 107, 110, 111, 119, 110]

/-- `re.match(r"_[A-Za-z0-9_\.\-]+", s)`: the string starts with `_`
followed by at least one of the allowed characters. -/
def matchesObfuscated : List Nat → Bool
  | 95 :: c :: _ =>
      (65 ≤ c && c ≤ 90) || (97 ≤ c && c ≤ 122) || (48 ≤ c && c ≤ 57) ||
        c == 95 || c == 46 || c == 45
  | _ => false

/-- `tghook._header.parse_identifier`; `Except.error` models the raised
`ValueError` (of which `AddressValueError` is a subclass). -/
def parse_identifier (identifier : List Nat) : Except Unit ForwardedElem :=
  if identifier = [] then .error ()
  else if identifier = unknownBytes || matchesObfuscated identifier then
    .ok (.obfuscated identifier)
  else if identifier.head? = some 91 then
    match rpartition2 93 58 identifier with
    | some (host, _) =>
        match parseIPv6 host.tail with
        | some a => .ok (.ipv6 a)
        | none => .error ()
    | none =>
        if identifier.getLast? = some 93 then
          match parseIPv6 (identifier.tail.dropLast) with
          | some a => .ok (.ipv6 a)
          | none => .error ()
        else .error ()
  else
    match parseIPv4 (partitionByte 58 identifier).1 with
    | some a => .ok (.ipv4 a)
    | none => .error ()

/-- The `for=` components selected by the list comprehension of
`parse_header_forwarded_for`: split the header on `;`/`,`, strip each
component, keep the part after `=` of those whose part before `=` is
exactly `for`. -/
def forwardedForElems (header : List Nat) : List (List Nat) :=
  (splitOnPred (fun b => b == 59 || b == 44) header).filterMap fun comp =>
    let e := partitionByte 61 (stripBytes comp)
    if e.1 = [102, 111, 114] then some e.2.2 else none

/-- `tghook._header.parse_header_forwarded_for`: parse every selected
component; a `ValueError` from any element aborts the whole call. -/
def parse_header_forwarded_for (header : List Nat) :
    Except Unit (List ForwardedElem) :=
  (forwardedForElems header).mapM parse_identifier

/-! ### `tghook.telegram._constants` -/

/-- A published IPv4 subnet: network address and prefix length. -/
structure IPv4Network where
  netAddr : Nat
  prefixLen : Nat
deriving DecidableEq, Repr

/-- Membership of an address in a network. -/
def inNetwork (addr : Nat) (n : IPv4Network) : Bool :=
  addr / 2 ^ (32 - n.prefixLen) = n.netAddr / 2 ^ (32 - n.prefixLen)

/-- `TELEGRAM_SUBNETS`: the two published Telegram subnets, extended with the
private ranges when the interpreter runs with `__debug__`. -/
def TELEGRAM_SUBNETS (debug : Bool) : List IPv4Network :=
  let published := [IPv4Network.mk (ipv4Val 91 108 4 0) 22,
    IPv4Network.mk (ipv4Val 149 154 160 0) 20]
  if debug then
    published ++ [IPv4Network.mk (ipv4Val 10 0 0 0) 8,
      IPv4Network.mk (ipv4Val 127 0 0 0) 8,
      IPv4Network.mk (ipv4Val 172 16 0 0) 12,
      IPv4Network.mk (ipv4Val 192 168 0 0) 16]
  else published

/-- `TELEGRAM_VALID_PORTS`. -/
def TELEGRAM_VALID_PORTS : List Nat := [443, 80, 88, 8443]

/-! ### `tghook._bot_server`: the request handler

`BotRequestHandler.do_POST` is embedded as a function from the handler's
mutable state (`self._update_id`, the deduplication cursor) and the request
data to the HTTP side effects and the next state. The body-parsing step
(`orjson.loads` + `Update.parse_obj`) and the business-logic callback are
kept abstract: the request carries the parse outcome, and the callback is a
parameter returning either an exception, `None`, or a response object with
its serialization outcome. An exception the handler does not catch is
returned as `Except.error`. -/

/-- `telegram.types.User`, restricted to the fields the server logic uses. -/
structure User where
  id : Int
  is_bot : Bool
  first_name : List Nat
  username : Option (List Nat)
deriving DecidableEq, Repr

/-- `telegram.types.Update`, restricted to `update_id`, the only field the
server logic reads. -/
structure Update where
  update_id : Int
deriving DecidableEq, Repr

/-- A callback response object (`RequestTypes`): its variant name and the
outcome of `res.dict` + `orjson.dumps` (which the handler computes inside a
`try`). -/
structure TgResponse where
  methodName : List Nat
  serialized : Except Unit (List Nat)

/-- Outcome of the business-logic callback `self._impl(self._bot, update)`:
an exception, or its optional response object. -/
def Callback : Type := User → Update → Except Unit (Option TgResponse)

/-- Mutable per-handler-instance state: `self._update_id`, initialized to 0
in `BotRequestHandler.__init__`. -/
structure HandlerState where
  update_id : Int
deriving DecidableEq, Repr

/-- `BotRequestHandler.__init__` sets `self._update_id = 0`. -/
def initialHandlerState : HandlerState := ⟨0⟩

/-- Observable side effects of one `do_POST` call, in order. -/
inductive HttpEvent
  | sendError (code : Nat)
  | sendResponse (code : Nat)
  | sendHeader (name value : List Nat)
  | endHeaders
  | writeBody (data : List Nat)
  | logWarn
  | logError
  | logDebug
  | callbackInvoked (u : Update)
deriving DecidableEq, Repr

/-- Uncaught Python exceptions of the model. -/
inductive PyErr
  | indexError
  | valueError (msg : List Nat)
  | runtimeError
deriving DecidableEq, Repr

/-- One POST request as `do_POST` sees it: the raw request path, the
`Forwarded` header (when present), the socket peer address
(`self.client_address[0]`), and the parse outcome of the body. -/
structure PostRequest where
  path : List Nat
  forwarded : Option (List Nat)
  socketPeer : List Nat
  body : Except Unit Update
deriving Repr

/-- Lines 121–124 of `_bot_server.py`: first element of
`parse_header_forwarded_for(self.headers.get("Forwarded", ''))`, required to
be an `IPv4Address`. `.error .indexError` is the uncaught `IndexError` of
`[0]` on an empty list; `.error (.valueError _)` is caught by the handler. -/
def forwardedIPv4 (header : List Nat) : Except PyErr Nat :=
  match parse_header_forwarded_for header with
  | .error _ => .error (.valueError [])
  | .ok [] => .error .indexError
  | .ok (.ipv4 a :: _) => .ok a
  | .ok (_ :: _) => .error (.valueError [])

/-- Lines 142–192 of `do_POST`: body parsing, deduplication, callback
dispatch, response serialization, cursor update. Independent of the client
address. -/
def handleParsedBody (bot : User) (impl : Callback) (st : HandlerState)
    (body : Except Unit Update) : List HttpEvent × HandlerState :=
  match body with
  | .error _ => ([.logError, .sendError 400], st)
  | .ok update =>
      if update.update_id ≤ st.update_id then
        ([.sendResponse 202, .endHeaders], st)
      else
        let pre : List HttpEvent := [.logDebug, .callbackInvoked update]
        match impl bot update with
        | .error _ => (pre ++ [.logError, .sendError 500], st)
        | .ok none =>
            (pre ++ [.sendResponse 200, .endHeaders],
              { update_id := update.update_id })
        | .ok (some res) =>
            match res.serialized with
            | .error _ => (pre ++ [.logError, .sendError 500], st)
            | .ok data =>
                (pre ++ [.logDebug, .sendResponse 200,
                  .sendHeader [67] [74], .sendHeader [67, 76] (natToDecimalBytes data.length),
                  .endHeaders, .writeBody data],
                  { update_id := update.update_id })

/-- Lines 134–192 of `do_POST`: the subnet warning (lines 134–140, a log
line only) followed by the body handling. -/
def handleWithAddress (bot : User) (impl : Callback) (st : HandlerState)
    (body : Except Unit Update) (clientAddr : Nat) (debug : Bool) :
    List HttpEvent × HandlerState :=
  ((if (TELEGRAM_SUBNETS debug).any (fun n => inNetwork clientAddr n) then []
    else [.logWarn]) ++ (handleParsedBody bot impl st body).1,
    (handleParsedBody bot impl st body).2)

/-- Lines 121–132 of `do_POST`: the full client-address resolution.
`.ok (some a)` resolves to an IPv4 address, `.ok none` is the 421 path
(both sources failed with `ValueError`), `.error` is an uncaught
exception. -/
def resolveOrigin (req : PostRequest) : Except PyErr (Option Nat) :=
  match forwardedIPv4 (req.forwarded.getD []) with
  | .ok a => .ok (some a)
  | .error (.valueError _) =>
      match parseIPv4 req.socketPeer with
      | some a => .ok (some a)
      | none => .ok none
  | .error e => .error e

/-- `BotRequestHandler.do_POST`. -/
def do_POST (bot : User) (token : List Nat) (impl : Callback)
    (st : HandlerState) (req : PostRequest) (debug : Bool) :
    Except PyErr (List HttpEvent × HandlerState) :=
  if pctUnquote req.path ≠ 47 :: token then .ok ([.sendError 404], st)
  else
    match resolveOrigin req with
    | .ok (some a) => .ok (handleWithAddress bot impl st req.body a debug)
    | .ok none => .ok ([.sendError 421], st)
    | .error e => .error e

/-- Requests of one connection, handled by one handler instance whose state
threads from request to request; an uncaught exception aborts the
connection. (`HTTPServer.finish_request` constructs a fresh
`BotRequestHandler` per accepted connection.) -/
def runHandler (bot : User) (token : List Nat) (impl : Callback) (debug : Bool) :
    HandlerState → List PostRequest →
      List (List HttpEvent) × HandlerState × Option PyErr
  | st, [] => ([], st, none)
  | st, r :: rs =>
      match do_POST bot token impl st r debug with
      | .error e => ([], st, some e)
      | .ok (evs, st') =>
          let rest := runHandler bot token impl debug st' rs
          (evs :: rest.1, rest.2)

/-- One connection: a fresh handler instance, so the cursor restarts at 0. -/
def runConnection (bot : User) (token : List Nat) (impl : Callback)
    (debug : Bool) (reqs : List PostRequest) :
    List (List HttpEvent) × HandlerState × Option PyErr :=
  runHandler bot token impl debug initialHandlerState reqs

/-- Number of callback invocations recorded in a list of event lists. -/
def countCallbacks (evss : List (List HttpEvent)) : Nat :=
  (evss.map fun evs =>
    (evs.filter fun e =>
      match e with
      | .callbackInvoked _ => true
      | _ => false).length).sum

/-! ### `tghook._adhoc_ssl`: certificate provisioner

`generate_adhoc_ssl_pair` is deterministic in the shape of the certificate
it builds (subject, SAN, validity, extensions); only the key material is
random. The shape is embedded as a record. -/

/-- An X.509 SubjectAlternativeName entry. -/
inductive SanEntry
  | dnsName (s : List Nat)
  | ipAddress (a : Nat)
deriving DecidableEq, Repr

/-- Shape of the self-signed certificate built by
`generate_adhoc_ssl_pair`. -/
structure AdhocCert where
  organizationName : List Nat
  commonName : List Nat
  subjectAltName : List SanEntry
  validityDays : Nat
  extendedKeyUsageServerAuth : Bool
deriving DecidableEq, Repr

/-- `tghook._adhoc_ssl.generate_adhoc_ssl_pair`: subject has the given
organization and common name, the SAN holds a single `x509.DNSName` entry
with the common name, validity is 365 days, EKU is `serverAuth`. -/
def generate_adhoc_ssl_pair (organization_name common_name : List Nat) :
    AdhocCert :=
  { organizationName := organization_name
    commonName := common_name
    subjectAltName := [.dnsName common_name]
    validityDays := 365
    extendedKeyUsageServerAuth := true }

/-! ### JSON values and the Telegram response envelope
(`tghook.telegram._request`, `_get_me`, `_delete_webhook`) -/

/-- JSON values as `orjson.loads` returns them. -/
inductive Json
  | null
  | bool (b : Bool)
  | num (n : Int)
  | str (s : List Nat)
  | arr (xs : List Json)
  | obj (fields : List (List Nat × Json))

/-- Python truthiness of a JSON value. -/
def Json.truthy : Json → Bool
  | .null => false
  | .bool b => b
  | .num n => n != 0
  | .str s => !s.isEmpty
  | .arr xs => !xs.isEmpty
  | .obj fs => !fs.isEmpty

/-- Bytes of `"ok"`. -/
def okKey : List Nat := [111, 107]

/-- Bytes of `"result"`. -/
def resultKey : List Nat := [114, 101, 115, 117, 108, 116]

/-- Lines 87–92 of `_request.py`: given the parsed response body, raise
`RuntimeError` unless `res.get("ok", False)` is truthy, then return
`res.get("result", None)`. A non-object body makes `res.get` raise
(`AttributeError`), modelled as an error as well. -/
def request_telegram_envelope (res : Json) : Except PyErr Json :=
  match res with
  | .obj fs =>
      if (((fs.lookup okKey).getD (.bool false))).truthy then
        .ok ((fs.lookup resultKey).getD .null)
      else .error .runtimeError
  | _ => .error .runtimeError

/-- `tghook.telegram._delete_webhook.delete_webhook`, as a function of the
remote response envelope: unwrap it, then raise `RuntimeError` when the
result is falsy. -/
def delete_webhook (response : Json) : Except PyErr Unit :=
  match request_telegram_envelope response with
  | .error e => .error e
  | .ok result => if result.truthy then .ok () else .error .runtimeError

/-- `tghook.telegram._get_me.get_me`, as a function of the response
envelope: unwrap it, then require a JSON object (for `User.parse_obj`). -/
def get_me (response : Json) : Except PyErr Json :=
  match request_telegram_envelope response with
  | .error e => .error e
  | .ok result =>
      match result with
      | .obj fs => .ok (.obj fs)
      | _ => .error .runtimeError

/-! ### `urllib.parse`: `urlsplit`, `urlunsplit`, `urljoin`

Modelled from the CPython implementation on ASCII byte strings. Omitted
relative to CPython: stripping of control characters, validation of
bracketed hosts, underscore/sign tolerance of `int` when parsing a port,
and the `params` component of `urlparse` (none of the inputs built by this
repository contain `;`). -/

/-- `scheme_chars`: letters, digits, `+`, `-`, `.`. -/
def schemeCharByte (b : Nat) : Bool :=
  (65 ≤ b && b ≤ 90) || (97 ≤ b && b ≤ 122) || (48 ≤ b && b ≤ 57) ||
    b == 43 || b == 45 || b == 46

/-- ASCII letter. -/
def isAlphaByte (b : Nat) : Bool :=
  (65 ≤ b && b ≤ 90) || (97 ≤ b && b ≤ 122)

/-- ASCII lowercasing of one byte. -/
def lowerByte (b : Nat) : Nat := if 65 ≤ b && b ≤ 90 then b + 32 else b

/-- Result of `urlsplit`. -/
structure SplitResult where
  scheme : List Nat
  netloc : List Nat
  path : List Nat
  query : List Nat
  fragment : List Nat
deriving DecidableEq, Repr

/-- Netloc delimiters: `/`, `?`, `#`. -/
def netlocDelim (b : Nat) : Bool := b == 47 || b == 63 || b == 35

/-- Components of `urlsplit(url, scheme=dflt)`, before the bracket
validation. -/
def urlsplitRaw (url : List Nat) (dflt : List Nat) : SplitResult :=
  let p := partitionByte 58 url
  let hasScheme := p.2.1 && !p.1.isEmpty &&
    isAlphaByte (p.1.headI) && p.1.all schemeCharByte
  let scheme := if hasScheme then p.1.map lowerByte else dflt
  let rest1 := if hasScheme then p.2.2 else url
  let hasNetloc := rest1.take 2 = [47, 47]
  let netloc := if hasNetloc then (rest1.drop 2).takeWhile (fun b => !netlocDelim b) else []
  let rest2 := if hasNetloc then (rest1.drop 2).dropWhile (fun b => !netlocDelim b) else rest1
  let pf := partitionByte 35 rest2
  let fragment := if pf.2.1 then pf.2.2 else []
  let pq := partitionByte 63 pf.1
  let query := if pq.2.1 then pq.2.2 else []
  ⟨scheme, netloc, pq.1, query, fragment⟩

/-- `urllib.parse.urlsplit(url, scheme=dflt)`. `ValueError` for a netloc
with unbalanced brackets. -/
def urlsplitModel (url : List Nat) (dflt : List Nat) : Except PyErr SplitResult :=
  if ((urlsplitRaw url dflt).netloc.contains 91)
      != ((urlsplitRaw url dflt).netloc.contains 93) then
    .error (.valueError [])
  else .ok (urlsplitRaw url dflt)

/-- `str.rpartition` around the last occurrence of one byte: part after it,
or the whole string if absent (what `_hostinfo` keeps). -/
def afterLastByte (sep : Nat) (s : List Nat) : List Nat :=
  match rpartition2Single sep s with
  | some post => post
  | none => s
where
  /-- Part after the last occurrence of `sep`. -/
  rpartition2Single (sep : Nat) : List Nat → Option (List Nat)
    | [] => none
    | b :: rest =>
        match rpartition2Single sep rest with
        | some post => some post
        | none => if b = sep then some rest else none

/-- `SplitResult._hostinfo`: strip userinfo at the last `@`, then split host
and port (with bracket handling); the port is `none` when absent or
empty. -/
def SplitResult.hostinfo (u : SplitResult) : Option (List Nat) × Option (List Nat) :=
  let hostinfo := afterLastByte 64 u.netloc
  let pbr := partitionByte 91 hostinfo
  let (hostname, portStr) :=
    if pbr.2.1 then
      let pcl := partitionByte 93 pbr.2.2
      (pcl.1, (partitionByte 58 pcl.2.2).2.2)
    else
      let pcol := partitionByte 58 hostinfo
      (pcol.1, pcol.2.2)
  (if hostname.isEmpty then none else some (hostname.map lowerByte),
   if portStr.isEmpty then none else some portStr)

/-- `SplitResult.hostname`. -/
def SplitResult.hostname (u : SplitResult) : Option (List Nat) := u.hostinfo.1

/-- `SplitResult.port`: parse the port digits, `ValueError` when they are
not a number in `0..65535`. -/
def SplitResult.port (u : SplitResult) : Except PyErr (Option Nat) :=
  match u.hostinfo.2 with
  | none => .ok none
  | some ps =>
      if ps.all isDigitByte then
        let v := ps.foldl (fun acc b => acc * 10 + (b - 48)) 0
        if v ≤ 65535 then .ok (some v) else .error (.valueError [])
      else .error (.valueError [])

/-- `urllib.parse.urlunsplit`. -/
def urlunsplit (u : SplitResult) : List Nat :=
  let url0 :=
    if !u.netloc.isEmpty || u.path.take 2 = [47, 47] then
      [47, 47] ++ u.netloc ++
        (if !u.path.isEmpty && u.path.head? ≠ some 47 then 47 :: u.path else u.path)
    else u.path
  let url1 := if !u.scheme.isEmpty then u.scheme ++ [58] ++ url0 else url0
  let url2 := if !u.query.isEmpty then url1 ++ [63] ++ u.query else url1
  if !u.fragment.isEmpty then url2 ++ [35] ++ u.fragment else url2

/-- `uses_relative` membership for the schemes this development meets. -/
def usesRelative (s : List Nat) : Bool :=
  s = [] || s = [104, 116, 116, 112] || s = [104, 116, 116, 112, 115] ||
    s = [102, 116, 112] || s = [102, 105, 108, 101] ||
    s = [119, 115] || s = [119, 115, 115]

/-- `uses_netloc` membership for the schemes this development meets. -/
def usesNetloc (s : List Nat) : Bool := usesRelative s

/-- Resolution of `.` and `..` segments in `urljoin`. -/
def resolveSegments (segments : List (List Nat)) : List (List Nat) :=
  let r := segments.foldl
    (fun acc seg =>
      if seg = [46, 46] then acc.dropLast
      else if seg = [46] then acc
      else acc ++ [seg]) []
  if segments.getLast? = some [46] || segments.getLast? = some [46, 46] then
    r ++ [[]]
  else r

/-- `'/'.join`. -/
def joinSlash (segments : List (List Nat)) : List Nat :=
  match segments with
  | [] => []
  | s :: rest => rest.foldl (fun acc seg => acc ++ [47] ++ seg) s

/-- `urllib.parse.urljoin(base, url)`. -/
def urljoinModel (base url : List Nat) : Except PyErr (List Nat) :=
  if base.isEmpty then .ok url
  else if url.isEmpty then .ok base
  else match urlsplitModel base [] with
  | .error e => .error e
  | .ok b =>
    match urlsplitModel url b.scheme with
    | .error e => .error e
    | .ok r =>
    if r.scheme ≠ b.scheme || !usesRelative r.scheme then .ok url
    else
      let retEarly := usesNetloc r.scheme && !r.netloc.isEmpty
      if retEarly then .ok (urlunsplit r)
      else
        let netloc := if usesNetloc r.scheme then b.netloc else r.netloc
        if r.path.isEmpty then
          let query := if r.query.isEmpty then b.query else r.query
          .ok (urlunsplit ⟨r.scheme, netloc, b.path, query, r.fragment⟩)
        else
          let baseParts := splitOnByte 47 b.path
          let baseParts' :=
            if baseParts.getLast? ≠ some [] then baseParts.dropLast else baseParts
          let segments :=
            if r.path.head? = some 47 then splitOnByte 47 r.path
            else
              let segs := baseParts' ++ splitOnByte 47 r.path
              match segs with
              | [] => []
              | s0 :: rest =>
                  s0 :: (rest.dropLast.filter (fun p => !p.isEmpty)) ++
                    (rest.getLast?.toList)
          let resolved := resolveSegments segments
          let path := if (joinSlash resolved).isEmpty then [47] else joinSlash resolved
          .ok (urlunsplit ⟨r.scheme, netloc, path, r.query, r.fragment⟩)

/-! ### `tghook.telegram._set_webhook` -/

/-- The `webhook` argument: `Union[str, Tuple[Union[str, IPv4Address], int]]`. -/
inductive WebhookArg
  | urlStr (s : List Nat)
  | hostPort (host : List Nat ⊕ Nat) (port : Nat)

/-- `"https"`. -/
def httpsBytes : List Nat := [104, 116, 116, 112, 115]

/-- `"None"` (`str(None)`, what `IPv4Address(None)` stringifies). -/
def noneBytes : List Nat := [78, 111, 110, 101]

/-- `_parse_webhook`. -/
def _parse_webhook (webhook : WebhookArg) : Except PyErr SplitResult :=
  match webhook with
  | .urlStr s => urlsplitModel s httpsBytes
  | .hostPort host port =>
      let h := match host with
        | .inl s => s
        | .inr a => ipv4Compressed a
      urlsplitModel ([47, 47] ++ h ++ [58] ++ natToDecimalBytes port) httpsBytes

/-- The outbound `setWebhook` request `set_webhook` would hand to
`request_telegram`: the parsed target and the multipart form fields. -/
structure SetWebhookRequest where
  url : SplitResult
  urlField : List Nat
  maxConnectionsField : List Nat
  ipAddressField : Option (List Nat)
  certificateField : Option (List Nat)
  allowedUpdatesPresent : Bool
deriving DecidableEq, Repr

/-- `tghook.telegram._set_webhook.set_webhook`, up to (and excluding) the
network call: every `ValueError` raised by its validation steps is an
`Except.error`; `Except.ok` carries the request that would then be sent via
`request_telegram`. -/
def set_webhook (webhook : WebhookArg) (bot_token : List Nat)
    (ip_address : Option Nat) (certificate : Option (List Nat))
    (max_connections : Int) (allowed_updates : Option (List (List Nat))) :
    Except PyErr SetWebhookRequest :=
  match _parse_webhook webhook with
  | .error e => .error e
  | .ok url =>
    if url.scheme ≠ httpsBytes then .error (.valueError [115])
    else match url.port with
    | .error e => .error e
    | .ok port? =>
      if (match port? with
          | some p => p ≠ 0 && !TELEGRAM_VALID_PORTS.contains p
          | none => false) then .error (.valueError [112])
      else if max_connections < 1 || max_connections > 100 then
        .error (.valueError [109])
      else match urljoinModel (urlunsplit url) (pctQuote bot_token) with
      | .error e => .error e
      | .ok urlField =>
        match ip_address with
        | some ip =>
            match parseIPv4 (url.hostname.getD noneBytes) with
            | some _ => .error (.valueError [105])
            | none =>
                .ok { url := url, urlField := urlField
                      maxConnectionsField := natToDecimalBytes max_connections.toNat
                      ipAddressField := some (ipv4Compressed ip)
                      certificateField := certificate
                      allowedUpdatesPresent := allowed_updates.isSome }
        | none =>
            .ok { url := url, urlField := urlField
                  maxConnectionsField := natToDecimalBytes max_connections.toNat
                  ipAddressField := none
                  certificateField := certificate
                  allowedUpdatesPresent := allowed_updates.isSome }

/-- Lines 106–109 of `_set_webhook.py`: after the network call, raise
`RuntimeError` when the envelope's result is falsy. -/
def set_webhook_response_check (response : Json) : Except PyErr Unit :=
  match request_telegram_envelope response with
  | .error e => .error e
  | .ok result => if result.truthy then .ok () else .error .runtimeError

/-! ### `tghook._bot_server.start_server`: lifecycle orchestration

The orchestrator is embedded as a function from the outcomes of its
collaborators (remote API, external-ip lookup) and its configuration to the
ordered list of lifecycle events it performs and the error it propagates,
with the `ExitStack` as an explicit list of cleanup actions unwound in
reverse order on every exit path. -/

/-- Ordered lifecycle side effects of `start_server`. -/
inductive LifeEvent
  | identifySelf
  | retrieveExternalIp
  | serverCreated
  | sslWrapped
  | threadStarted
  | signalHandlersInstalled
  | setWebhookCalled
  | unregisterPushed
  | threadJoined
  | serverShutdown
  | deleteWebhookCalled
  | serverClosed
deriving DecidableEq, Repr

/-- Outcomes of the orchestrator's collaborators. -/
structure RemoteOutcomes where
  getMeResult : Except Unit User
  externalIpResult : Except Unit Nat
  setWebhookOk : Bool
  deleteWebhookOk : Bool

/-- `EXTERNAL_HOST_TYPE = Union[str, None, IPv4Address,
Tuple[str, Optional[IPv4Address]]]`. -/
inductive ExternalHostArg
  | noHost
  | host (s : List Nat)
  | ip (a : Nat)
  | pair (alt : List Nat) (h : Option Nat)

/-- The cleanup actions `start_server` registers on its `ExitStack`, newest
first. -/
inductive Cleanup
  | closeServer
  | shutdownOnError
  | unregister
deriving DecidableEq, Repr

/-- Events one cleanup action emits when the stack unwinds;
`shutdown_server_on_error` only acts when an exception is propagating. -/
def cleanupEvents (c : Cleanup) (excActive : Bool) : List LifeEvent :=
  match c with
  | .closeServer => [.serverClosed]
  | .shutdownOnError => if excActive then [.serverShutdown] else []
  | .unregister => [.deleteWebhookCalled]

/-- Unwind an `ExitStack` (most recently registered action first). -/
def unwindStack (stack : List Cleanup) (excActive : Bool) : List LifeEvent :=
  (stack.map (cleanupEvents · excActive)).flatten

/-- Result of one `start_server` run: its ordered events and the error it
propagates, if any. -/
structure LifeResult where
  events : List LifeEvent
  error : Option PyErr
deriving DecidableEq, Repr

/-- Lines 259–266 of `start_server`: extract `alternative_name` from a
tuple argument and resolve the external host, calling the external-ip
lookup when none was given. Returns the lookup events and either the
propagated lookup error or the pair (alternative_name, external_host). -/
def resolveExternalHost (outcomes : RemoteOutcomes) :
    ExternalHostArg →
      List LifeEvent × Except PyErr (Option (List Nat) × (List Nat ⊕ Nat))
  | .host s => ([], .ok (none, .inl s))
  | .ip a => ([], .ok (none, .inr a))
  | .pair alt (some a) => ([], .ok (some alt, .inr a))
  | .noHost =>
      ([.retrieveExternalIp],
        match outcomes.externalIpResult with
        | .ok a => .ok (none, .inr a)
        | .error _ => .error .runtimeError)
  | .pair alt none =>
      ([.retrieveExternalIp],
        match outcomes.externalIpResult with
        | .ok a => .ok (some alt, .inr a)
        | .error _ => .error .runtimeError)

/-- Lines 271–369 of `start_server`: the `ExitStack` block — server
creation, optional TLS wrapping (with the `alternative_name` rules of lines
282–300), listener start, registration, and the unwinding of the stack on
every exit path. -/
def serverPhase (outcomes : RemoteOutcomes) (bot : User) (ssl : Bool)
    (alternative_name : Option (List Nat)) (ehost : List Nat ⊕ Nat)
    (ipEvents : List LifeEvent) : LifeResult :=
  let pre0 := [LifeEvent.identifySelf] ++ ipEvents ++ [LifeEvent.serverCreated]
  let stack0 : List Cleanup := [.closeServer]
  -- ssl wrapping / certificate generation; when the external host is an IP
  -- and no alternative name was given, it defaults to
  -- f"{bot.first_name.lower()}.bot"
  let sslStep : Except PyErr (List LifeEvent × Option (List Nat)) :=
    if ssl then
      match ehost, alternative_name with
      | .inl _, some _ => .error (.valueError [97])
      | .inl _, none => .ok ([.sslWrapped], none)
      | .inr _, some a => .ok ([.sslWrapped], some a)
      | .inr _, none =>
          .ok ([.sslWrapped],
            some (bot.first_name.map lowerByte ++ [46, 98, 111, 116]))
    else .ok ([], alternative_name)
  match sslStep with
  | .error e =>
      { events := pre0 ++ unwindStack stack0 true, error := some e }
  | .ok (sslEvents, altName) =>
      let pre := pre0 ++ sslEvents ++
        [LifeEvent.threadStarted, .signalHandlersInstalled]
      let stack1 : List Cleanup := .shutdownOnError :: stack0
      -- webhook registration; `if alternative_name:` is truthiness
      let altTruthy : Bool :=
        match altName with
        | some s => !s.isEmpty
        | none => false
      let regStep : List LifeEvent × Option PyErr :=
        if altTruthy then
          match ehost with
          | .inl _ => ([], some (.valueError [97]))
          | .inr _ =>
              ([.setWebhookCalled],
                if outcomes.setWebhookOk then none else some .runtimeError)
        else
          match ehost with
          | .inr _ => ([], some (.valueError [101]))
          | .inl _ =>
              ([.setWebhookCalled],
                if outcomes.setWebhookOk then none else some .runtimeError)
      match regStep.2 with
      | some e =>
          { events := pre ++ regStep.1 ++ unwindStack stack1 true
            error := some e }
      | none =>
          let stack2 : List Cleanup := .unregister :: stack1
          { events := pre ++ regStep.1 ++
              [.unregisterPushed, .threadJoined] ++ unwindStack stack2 false
            error := none }

/-- `tghook._bot_server.start_server`. `ssl` is `True`/`False` (the
`SSLContext` variant behaves as `True` without certificate generation and is
not modelled). -/
def start_server (outcomes : RemoteOutcomes) (ssl : Bool)
    (external_host : ExternalHostArg) (external_port : Option Nat)
    (port : Nat) : LifeResult :=
  match outcomes.getMeResult with
  | .error _ => { events := [.identifySelf], error := some .runtimeError }
  | .ok bot =>
      let _external_port := external_port.getD port
      match resolveExternalHost outcomes external_host with
      | (ipEvents, .error e) =>
          { events := [.identifySelf] ++ ipEvents, error := some e }
      | (ipEvents, .ok (alternative_name, ehost)) =>
          serverPhase outcomes bot ssl alternative_name ehost ipEvents

/-! ### Shared concrete fixtures for the claim scenarios -/

/-- Bytes of an ASCII string. -/
def strBytes (s : String) : List Nat := s.toList.map Char.toNat

/-- A sample bot identity. -/
def sampleBot : User :=
  { id := 1, is_bot := true, first_name := strBytes "Bot", username := none }

/-- A callback that succeeds returning `None`. -/
def sampleImpl : Callback := fun _ _ => .ok none

/-- A callback that raises. -/
def raisingImpl : Callback := fun _ _ => .error ()

/-- A sample bot token, `"a"`. -/
def sampleToken : List Nat := [97]

/-- A delivery of update 1 to `/{token}` with a Telegram-subnet `Forwarded`
address. -/
def sampleReq1 : PostRequest :=
  { path := [47, 97]
    forwarded := some (strBytes "for=149.154.160.1")
    socketPeer := []
    body := .ok ⟨1⟩ }

/-- The stubbed remote response `{"ok": true, "result": true}`. -/
def stubOkEnvelope : Json := .obj [(okKey, .bool true), (resultKey, .bool true)]

/-- Events of a `do_POST` run with the log lines removed: everything the
client can observe. -/
def responseEvents (evs : List HttpEvent) : List HttpEvent :=
  evs.filter fun e =>
    match e with
    | .logWarn => false
    | .logError => false
    | .logDebug => false
    | _ => true

/-- Bytes an ordinary hostname is made of: everything except the URL
delimiters `/ ? #`, brackets, `:` and `@`. -/
def plainHostByte (b : Nat) : Bool :=
  !(b == 47 || b == 63 || b == 35 || b == 91 || b == 93 || b == 58 || b == 64)

/-- The parse of the concrete webhook target `(IPv4 1.2.3.4, 443)`. -/
def parsedIpUrl : SplitResult :=
  ⟨httpsBytes, strBytes "1.2.3.4:443", [], [], []⟩

theorem pctUnquoteGo_nil (f : Nat) : pctUnquoteGo f [] = [] := by
  cases f <;> rfl

theorem pctUnquoteGo_fuel (f₁ : Nat) : ∀ (f₂ : Nat) (l : List Nat),
    l.length ≤ f₁ → l.length ≤ f₂ → pctUnquoteGo f₁ l = pctUnquoteGo f₂ l := by
  induction f₁ with
  | zero =>
      intro f₂ l h₁ _
      have hl : l = [] := List.eq_nil_of_length_eq_zero (Nat.le_zero.mp h₁)
      subst hl
      rw [pctUnquoteGo_nil, pctUnquoteGo_nil]
  | succ f ih =>
      intro f₂ l h₁ h₂
      cases l with
      | nil => rw [pctUnquoteGo_nil, pctUnquoteGo_nil]
      | cons b rest =>
          cases f₂ with
          | zero => simp at h₂
          | succ g =>
              simp only [List.length_cons, Nat.succ_le_succ_iff] at h₁ h₂
              simp only [pctUnquoteGo]
              by_cases hb : b = 37
              · rw [if_pos hb, if_pos hb]
                cases rest with
                | nil => rw [pctUnquoteGo_nil, pctUnquoteGo_nil]
                | cons h t =>
                    cases t with
                    | nil =>
                        rw [ih g [h] (by simp at h₁ ⊢; omega)
                          (by simp at h₂ ⊢; omega)]
                    | cons l' t' =>
                        simp only [List.length_cons] at h₁ h₂
                        cases hu : unhexByte h <;> cases hu' : unhexByte l' <;>
                          simp only [hu, hu'] <;>
                          rw [ih g _
                            (by first | omega | (simp only [List.length_cons]; omega))
                            (by first | omega | (simp only [List.length_cons]; omega))]
              · rw [if_neg hb, if_neg hb, ih g rest h₁ h₂]

theorem pctUnquote_nil : pctUnquote [] = [] := rfl

theorem pctUnquote_cons_ne (b : Nat) (rest : List Nat) (h : b ≠ 37) :
    pctUnquote (b :: rest) = b :: pctUnquote rest := by
  simp only [pctUnquote, List.length_cons, pctUnquoteGo]
  rw [if_neg h]

theorem pctUnquote_escape (h l : Nat) (rest : List Nat) (hi lo : Nat)
    (hh : unhexByte h = some hi) (hl : unhexByte l = some lo) :
    pctUnquote (37 :: h :: l :: rest) = (hi * 16 + lo) :: pctUnquote rest := by
  have hf := pctUnquoteGo_fuel (rest.length + 2) rest.length rest
    (by omega) (Nat.le_refl _)
  simp only [pctUnquote, List.length_cons, pctUnquoteGo, hh, hl, if_true]
  rw [hf]

theorem unhexByte_hexDigitByte (n : Nat) (h : n < 16) :
    unhexByte (hexDigitByte n) = some n := by
  have : ∀ m : Fin 16, unhexByte (hexDigitByte m.val) = some m.val := by decide
  exact this ⟨n, h⟩

theorem quoteSafeByte_ne_37 (b : Nat) (h : quoteSafeByte b = true) : b ≠ 37 := by
  intro hb
  subst hb
  simp [quoteSafeByte, isAlwaysSafeByte] at h

/-- Round trip: `unquote(quote(s)) = s` for any byte string. -/
theorem pctUnquote_pctQuote (bs : List Nat) (h : ∀ b ∈ bs, b < 256) :
    pctUnquote (pctQuote bs) = bs := by
  induction bs with
  | nil => exact pctUnquote_nil
  | cons b bs ih =>
      have hb : b < 256 := h b (List.mem_cons_self b bs)
      have hrest : ∀ x ∈ bs, x < 256 := fun x hx => h x (List.mem_cons_of_mem b hx)
      by_cases hsafe : quoteSafeByte b
      · rw [pctQuote, if_pos hsafe, List.singleton_append]
        rw [pctUnquote_cons_ne b _ (quoteSafeByte_ne_37 b hsafe), ih hrest]
      · rw [pctQuote, if_neg hsafe, List.cons_append, List.cons_append,
          List.cons_append, List.nil_append]
        have hdiv : b / 16 < 16 := by omega
        have hmod : b % 16 < 16 := Nat.mod_lt _ (by omega)
        rw [pctUnquote_escape _ _ _ _ _ (unhexByte_hexDigitByte _ hdiv)
          (unhexByte_hexDigitByte _ hmod), ih hrest]
        congr 1
        omega

/-! ### Claim theorems -/

/-- C1: the claim states the deduplication cursor is process-wide shared
state, so that a payload `p2` with `p2.update_id ≤ p1.update_id` of an
already-processed `p1` gets 202 with no callback invocation even on a
different connection. The code instead keeps the cursor on the handler
instance, and `HTTPServer.finish_request` builds a fresh handler (cursor 0)
per connection: on one connection the replay of update 1 does get 202 with
one callback invocation in total, but on a fresh connection the
already-processed update 1 is processed again — response 200 and a second
callback invocation, cursor restarted — contradicting the claim. -/
theorem C1_dedup_cursor_resets_per_connection :
    runConnection sampleBot sampleToken sampleImpl true [sampleReq1, sampleReq1] =
      ([[.logDebug, .callbackInvoked ⟨1⟩, .sendResponse 200, .endHeaders],
        [.sendResponse 202, .endHeaders]], ⟨1⟩, none) ∧
    runConnection sampleBot sampleToken sampleImpl true [sampleReq1] =
      ([[.logDebug, .callbackInvoked ⟨1⟩, .sendResponse 200, .endHeaders]],
        ⟨1⟩, none) ∧
    countCallbacks
      ((runConnection sampleBot sampleToken sampleImpl true [sampleReq1]).1 ++
        (runConnection sampleBot sampleToken sampleImpl true [sampleReq1]).1) = 2 :=
  ⟨rfl, rfl, rfl⟩

/-- C2: the claim states that when the `Forwarded` header is absent the
handler falls back to the raw socket peer address. In the code,
`parse_header_forwarded_for('')` returns `[]`, the `[0]` subscript raises
`IndexError`, which the surrounding `except ValueError` does not catch: the
request dies with an uncaught exception and no response, even though the
socket peer (`149.154.160.1`) is a perfectly parseable IPv4 address the
claimed fallback would have used. -/
theorem C2_absent_forwarded_header_uncaught_index_error :
    do_POST sampleBot sampleToken sampleImpl initialHandlerState
      { path := [47, 97], forwarded := none
        socketPeer := strBytes "149.154.160.1", body := .ok ⟨1⟩ } true
      = .error .indexError ∧
    parseIPv4 (strBytes "149.154.160.1") = some (ipv4Val 149 154 160 1) ∧
    parse_header_forwarded_for [] = .ok [] :=
  ⟨rfl, rfl, rfl⟩

/-- C3 counterexample: for the identity `"1.2.3.4"` — an IP address — the
generated certificate's SAN is a DNS-name entry holding the address text,
not the IP-address entry the claim requires. -/
theorem C3_counterexample_ip_identity_gets_dns_san :
    parseIPv4 (strBytes "1.2.3.4") = some (ipv4Val 1 2 3 4) ∧
    (generate_adhoc_ssl_pair (strBytes "Telegram Bot: Bot")
        (strBytes "1.2.3.4")).subjectAltName = [.dnsName (strBytes "1.2.3.4")] ∧
    ¬ ∃ a, SanEntry.ipAddress a ∈
      (generate_adhoc_ssl_pair (strBytes "Telegram Bot: Bot")
        (strBytes "1.2.3.4")).subjectAltName := by
  refine ⟨rfl, rfl, ?_⟩
  rintro ⟨a, ha⟩
  simp [generate_adhoc_ssl_pair] at ha

/-- C3 (amended): for every identity given to the certificate provisioner,
`CommonName` and `SubjectAlternativeName` equal that identity, but the SAN
entry is always a DNS-name entry — also when the identity is an IP address
(the certificate is valid for 365 days with `serverAuth` EKU). -/
theorem C3_amended_san_always_dns_entry (organization identity : List Nat) :
    (generate_adhoc_ssl_pair organization identity).commonName = identity ∧
    (generate_adhoc_ssl_pair organization identity).subjectAltName
      = [.dnsName identity] ∧
    (generate_adhoc_ssl_pair organization identity).validityDays = 365 ∧
    (generate_adhoc_ssl_pair organization identity).extendedKeyUsageServerAuth
      = true :=
  ⟨rfl, rfl, rfl, rfl⟩

/-- C4: for every delivery that reaches the callback (path matches, an
origin address resolved, body parsed, `update_id` above the cursor): if the
callback raises, the handler responds 500, writes no response body, sends no
200, and leaves the cursor unchanged; and whenever the handler state
changed at all, the cursor now equals the payload's `update_id` and the
callback did not raise. -/
theorem C4_callback_failure_500_no_cursor_advance
    (bot : User) (token : List Nat) (impl : Callback) (st : HandlerState)
    (req : PostRequest) (debug : Bool) (update : Update) (addr : Nat)
    (hpath : pctUnquote req.path = 47 :: token)
    (horigin : resolveOrigin req = .ok (some addr))
    (hbody : req.body = .ok update)
    (hfresh : st.update_id < update.update_id) :
    (impl bot update = .error () →
      ∃ evs, do_POST bot token impl st req debug = .ok (evs, st) ∧
        HttpEvent.sendError 500 ∈ evs ∧
        (∀ d, HttpEvent.writeBody d ∉ evs) ∧
        HttpEvent.sendResponse 200 ∉ evs) ∧
    (∀ evs st', do_POST bot token impl st req debug = .ok (evs, st') →
      st' ≠ st →
      st'.update_id = update.update_id ∧ impl bot update ≠ .error ()) := by
  have hcond : ¬ (pctUnquote req.path ≠ 47 :: token) := by simp [hpath]
  have hded : ¬ (update.update_id ≤ st.update_id) := by omega
  simp only [do_POST, if_neg hcond, horigin, handleWithAddress,
    handleParsedBody, hbody, if_neg hded]
  constructor
  · intro himpl
    simp only [himpl]
    refine ⟨_, rfl, ?_, ?_, ?_⟩ <;> split <;> simp
  · intro evs st' heq hne
    match himpl : impl bot update with
    | .error () =>
        simp only [himpl, Except.ok.injEq, Prod.mk.injEq] at heq
        exact absurd heq.2.symm hne
    | .ok none =>
        simp only [himpl, Except.ok.injEq, Prod.mk.injEq] at heq
        exact ⟨by rw [← heq.2], by simp [himpl]⟩
    | .ok (some res) =>
        match hser : res.serialized with
        | .error () =>
            simp only [himpl, hser, Except.ok.injEq, Prod.mk.injEq] at heq
            exact absurd heq.2.symm hne
        | .ok data =>
            simp only [himpl, hser, Except.ok.injEq, Prod.mk.injEq] at heq
            exact ⟨by rw [← heq.2], by simp [himpl]⟩

/-- C4 witness: the concrete delivery of update 1 with a raising callback
gets 500, no body write, no 200, and an unchanged handler state. -/
theorem C4_witness :
    ∃ evs, do_POST sampleBot sampleToken raisingImpl initialHandlerState
        sampleReq1 true = .ok (evs, initialHandlerState) ∧
      HttpEvent.sendError 500 ∈ evs ∧
      (∀ d, HttpEvent.writeBody d ∉ evs) ∧
      HttpEvent.sendResponse 200 ∉ evs :=
  (C4_callback_failure_500_no_cursor_advance sampleBot sampleToken raisingImpl
    initialHandlerState sampleReq1 true ⟨1⟩ (ipv4Val 149 154 160 1)
    rfl rfl rfl (by decide)).1 rfl

/-- Lines 106–109 of `_set_webhook.py` applied to a response envelope (the
post-processing `set_webhook` runs on `request_telegram`'s result). -/
theorem C6_envelope_ok_false_raises_ok_true_succeeds :
    (∀ fields : List (List Nat × Json),
      fields.lookup okKey = some (.bool false) →
        (∃ e, get_me (.obj fields) = .error e) ∧
        (∃ e, set_webhook_response_check (.obj fields) = .error e) ∧
        (∃ e, delete_webhook (.obj fields) = .error e)) ∧
    set_webhook_response_check stubOkEnvelope = .ok () ∧
    delete_webhook stubOkEnvelope = .ok () := by
  refine ⟨?_, rfl, rfl⟩
  intro fields hok
  refine ⟨⟨.runtimeError, ?_⟩, ⟨.runtimeError, ?_⟩, ⟨.runtimeError, ?_⟩⟩ <;>
    simp [get_me, set_webhook_response_check, delete_webhook,
      request_telegram_envelope, hok, Json.truthy]

/-- C6 witness: a concrete `ok:false` envelope makes `delete_webhook`
raise, and the stub `{"ok": true, "result": true}` lets it succeed. -/
theorem C6_witness :
    ([(okKey, Json.bool false)].lookup okKey = some (Json.bool false)) ∧
    (∃ e, delete_webhook (.obj [(okKey, .bool false)]) = .error e) ∧
    delete_webhook stubOkEnvelope = .ok () :=
  ⟨rfl, (C6_envelope_ok_false_raises_ok_true_succeeds.1
      [(okKey, .bool false)] rfl).2.2,
    C6_envelope_ok_false_raises_ok_true_succeeds.2.2⟩

theorem responseEvents_warn (c : Bool) (t : List HttpEvent) :
    responseEvents ((if c then [] else [.logWarn]) ++ t) = responseEvents t := by
  cases c <;> simp [responseEvents]

theorem handleParsedBody_no_logWarn (bot : User) (impl : Callback)
    (st : HandlerState) (body : Except Unit Update) :
    HttpEvent.logWarn ∉ (handleParsedBody bot impl st body).1 := by
  rcases body with ⟨⟩ | update <;> simp only [handleParsedBody]
  · simp
  · split
    · simp
    · rcases himpl : impl bot update with ⟨⟩ | _ | res <;> simp only [himpl]
      · simp
      · simp
      · rcases hser : res.serialized with ⟨⟩ | data <;> simp only [hser] <;> simp

theorem handleWithAddress_subnet_only_logs (bot : User) (impl : Callback)
    (st : HandlerState) (body : Except Unit Update) (a₁ a₂ : Nat)
    (debug : Bool) :
    responseEvents (handleWithAddress bot impl st body a₁ debug).1 =
      responseEvents (handleWithAddress bot impl st body a₂ debug).1 ∧
    (handleWithAddress bot impl st body a₁ debug).2 =
      (handleWithAddress bot impl st body a₂ debug).2 ∧
    (HttpEvent.logWarn ∈ (handleWithAddress bot impl st body a₁ debug).1 ↔
      ¬ ((TELEGRAM_SUBNETS debug).any fun n => inNetwork a₁ n) = true) := by
  have hno := handleParsedBody_no_logWarn bot impl st body
  unfold handleWithAddress
  refine ⟨by rw [responseEvents_warn, responseEvents_warn], rfl, ?_⟩
  split
  · next h => simp [h, hno]
  · next h => simp [h]

/-- C9: for two deliveries to `/{token}` identical up to how the client
address was conveyed, both resolving to some IPv4 address, the handler's
response (status, headers, body, callback effects) and resulting state are
identical — subnet membership of the address influences nothing but the
warning log line, which is emitted exactly when the address is outside the
published subnets. -/
theorem C9_out_of_subnet_logged_never_rejected
    (bot : User) (token : List Nat) (impl : Callback) (st : HandlerState)
    (debug : Bool) (req₁ req₂ : PostRequest) (a₁ a₂ : Nat)
    (hpath₁ : pctUnquote req₁.path = 47 :: token)
    (hpath₂ : pctUnquote req₂.path = 47 :: token)
    (hbody : req₁.body = req₂.body)
    (h₁ : resolveOrigin req₁ = .ok (some a₁))
    (h₂ : resolveOrigin req₂ = .ok (some a₂)) :
    ∃ evs₁ st₁ evs₂ st₂,
      do_POST bot token impl st req₁ debug = .ok (evs₁, st₁) ∧
      do_POST bot token impl st req₂ debug = .ok (evs₂, st₂) ∧
      responseEvents evs₁ = responseEvents evs₂ ∧ st₁ = st₂ ∧
      (HttpEvent.logWarn ∈ evs₁ ↔
        ¬ ((TELEGRAM_SUBNETS debug).any fun n => inNetwork a₁ n) = true) := by
  have hcond₁ : ¬ (pctUnquote req₁.path ≠ 47 :: token) := by simp [hpath₁]
  have hcond₂ : ¬ (pctUnquote req₂.path ≠ 47 :: token) := by simp [hpath₂]
  have key := handleWithAddress_subnet_only_logs bot impl st req₁.body a₁ a₂ debug
  rw [hbody] at key
  refine ⟨(handleWithAddress bot impl st req₁.body a₁ debug).1,
    (handleWithAddress bot impl st req₁.body a₁ debug).2,
    (handleWithAddress bot impl st req₂.body a₂ debug).1,
    (handleWithAddress bot impl st req₂.body a₂ debug).2, ?_, ?_, ?_, ?_, ?_⟩
  · simp only [do_POST, if_neg hcond₁, h₁]
  · simp only [do_POST, if_neg hcond₂, h₂]
  · rw [hbody]
    exact key.1
  · rw [hbody]
    exact key.2.1
  · rw [hbody]
    exact key.2.2

/-- C9 witness: the out-of-subnet address `8.8.8.8` gets the same response
as the Telegram-subnet address `149.154.160.1`, plus a warning log line. -/
theorem C9_witness :
    ∃ evs₁ st₁ evs₂ st₂,
      do_POST sampleBot sampleToken sampleImpl initialHandlerState
        { path := [47, 97], forwarded := some (strBytes "for=8.8.8.8")
          socketPeer := [], body := .ok ⟨1⟩ } true = .ok (evs₁, st₁) ∧
      do_POST sampleBot sampleToken sampleImpl initialHandlerState
        sampleReq1 true = .ok (evs₂, st₂) ∧
      responseEvents evs₁ = responseEvents evs₂ ∧ st₁ = st₂ ∧
      (HttpEvent.logWarn ∈ evs₁ ↔
        ¬ ((TELEGRAM_SUBNETS true).any fun n =>
            inNetwork (ipv4Val 8 8 8 8) n) = true) :=
  C9_out_of_subnet_logged_never_rejected sampleBot sampleToken sampleImpl
    initialHandlerState true
    { path := [47, 97], forwarded := some (strBytes "for=8.8.8.8")
      socketPeer := [], body := .ok ⟨1⟩ }
    sampleReq1 (ipv4Val 8 8 8 8) (ipv4Val 149 154 160 1)
    rfl rfl rfl rfl rfl

/-- C5: whenever `start_server` reaches the registration call (so the
listener thread has already started) and `setWebhook` fails, the exit stack
runs `shutdown_server_on_error` — stopping the listener — and closes the
server before the error propagates to the caller: the run's events end with
`setWebhookCalled, serverShutdown, serverClosed`, the listener start event
precedes them, and the result carries the error. -/
theorem serverPhase_reg_failure (outcomes : RemoteOutcomes) (bot : User)
    (ssl : Bool) (anam : Option (List Nat)) (ehost : List Nat ⊕ Nat)
    (ipEvents : List LifeEvent)
    (hreg : outcomes.setWebhookOk = false)
    (hip : LifeEvent.setWebhookCalled ∉ ipEvents)
    (hreached : LifeEvent.setWebhookCalled ∈
      (serverPhase outcomes bot ssl anam ehost ipEvents).events) :
    ∃ pre, (serverPhase outcomes bot ssl anam ehost ipEvents).events
        = pre ++ [.setWebhookCalled, .serverShutdown, .serverClosed] ∧
      LifeEvent.threadStarted ∈ pre ∧
      (serverPhase outcomes bot ssl anam ehost ipEvents).error
        = some .runtimeError := by
  cases ssl <;> rcases ehost with s | a <;> rcases anam with _ | alt
  · -- no ssl, hostname, no alternative name: registration reached
    exact ⟨[.identifySelf] ++ ipEvents ++
        [.serverCreated, .threadStarted, .signalHandlersInstalled],
      by simp [serverPhase, unwindStack, cleanupEvents, hreg],
      by simp, by simp [serverPhase, hreg]⟩
  · -- no ssl, hostname, alternative name: truthy alt is a config error
    rcases alt with _ | ⟨b, bs⟩
    · exact ⟨[.identifySelf] ++ ipEvents ++
          [.serverCreated, .threadStarted, .signalHandlersInstalled],
        by simp [serverPhase, unwindStack, cleanupEvents, hreg],
        by simp, by simp [serverPhase, hreg]⟩
    · simp [serverPhase, unwindStack, cleanupEvents, hreg, hip] at hreached
  · -- no ssl, IP, no alternative name: config error before the call
    simp [serverPhase, unwindStack, cleanupEvents, hreg, hip] at hreached
  · -- no ssl, IP, alternative name
    rcases alt with _ | ⟨b, bs⟩
    · simp [serverPhase, unwindStack, cleanupEvents, hreg, hip] at hreached
    · exact ⟨[.identifySelf] ++ ipEvents ++
          [.serverCreated, .threadStarted, .signalHandlersInstalled],
        by simp [serverPhase, unwindStack, cleanupEvents, hreg],
        by simp, by simp [serverPhase, hreg]⟩
  · -- ssl, hostname, no alternative name
    exact ⟨[.identifySelf] ++ ipEvents ++
        [.serverCreated, .sslWrapped, .threadStarted,
          .signalHandlersInstalled],
      by simp [serverPhase, unwindStack, cleanupEvents, hreg],
      by simp, by simp [serverPhase, hreg]⟩
  · -- ssl, hostname, alternative name: certificate config error
    simp [serverPhase, unwindStack, cleanupEvents, hreg, hip] at hreached
  · -- ssl, IP, no alternative name: default alternative name, registration
    exact ⟨[.identifySelf] ++ ipEvents ++
        [.serverCreated, .sslWrapped, .threadStarted,
          .signalHandlersInstalled],
      by simp [serverPhase, unwindStack, cleanupEvents, hreg],
      by simp, by simp [serverPhase, hreg]⟩
  · -- ssl, IP, alternative name
    rcases alt with _ | ⟨b, bs⟩
    · simp [serverPhase, unwindStack, cleanupEvents, hreg, hip] at hreached
    · exact ⟨[.identifySelf] ++ ipEvents ++
          [.serverCreated, .sslWrapped, .threadStarted,
            .signalHandlersInstalled],
        by simp [serverPhase, unwindStack, cleanupEvents, hreg],
        by simp, by simp [serverPhase, hreg]⟩

/-- C5: whenever `start_server` reaches the registration call (so the
listener thread has already started) and `setWebhook` fails, the exit stack
runs `shutdown_server_on_error` — stopping the listener — and closes the
server before the error propagates to the caller: the run's events end with
`setWebhookCalled, serverShutdown, serverClosed`, the listener start event
precedes them, and the result carries the error. -/
theorem C5_registration_failure_stops_listener
    (outcomes : RemoteOutcomes) (ssl : Bool) (eh : ExternalHostArg)
    (eport : Option Nat) (port : Nat) (bot : User)
    (hget : outcomes.getMeResult = .ok bot)
    (hreg : outcomes.setWebhookOk = false)
    (hreached : LifeEvent.setWebhookCalled ∈
      (start_server outcomes ssl eh eport port).events) :
    ∃ pre, (start_server outcomes ssl eh eport port).events
        = pre ++ [.setWebhookCalled, .serverShutdown, .serverClosed] ∧
      LifeEvent.threadStarted ∈ pre ∧
      (start_server outcomes ssl eh eport port).error = some .runtimeError := by
  rcases hres : resolveExternalHost outcomes eh with ⟨ipEvents, res⟩
  have hip : LifeEvent.setWebhookCalled ∉ ipEvents := by
    have hev : (resolveExternalHost outcomes eh).1 = [] ∨
        (resolveExternalHost outcomes eh).1 = [.retrieveExternalIp] := by
      rcases eh with _ | s' | a' | ⟨alt', _ | a''⟩ <;> simp [resolveExternalHost]
    rw [hres] at hev
    rcases hev with h2 | h2 <;> simp only [] at h2 <;> subst h2 <;> simp
  rcases res with e | ⟨anam, ehost⟩
  · have hform : start_server outcomes ssl eh eport port
        = { events := [.identifySelf] ++ ipEvents, error := some e } := by
      simp only [start_server, hget, hres]
    rw [hform] at hreached
    simp [hip] at hreached
  · have hform : start_server outcomes ssl eh eport port
        = serverPhase outcomes bot ssl anam ehost ipEvents := by
      simp only [start_server, hget, hres]
    rw [hform] at hreached ⊢
    exact serverPhase_reg_failure outcomes bot ssl anam ehost ipEvents
      hreg hip hreached

/-- C5 witness: a concrete run with a hostname target whose `setWebhook`
fails: the listener is started and then shut down before the error
returns. -/
theorem C5_witness :
    ∃ pre, (start_server
        { getMeResult := .ok sampleBot, externalIpResult := .ok 0
          setWebhookOk := false, deleteWebhookOk := true }
        true (.host (strBytes "example.com")) none 443).events
        = pre ++ [.setWebhookCalled, .serverShutdown, .serverClosed] ∧
      LifeEvent.threadStarted ∈ pre ∧
      (start_server
        { getMeResult := .ok sampleBot, externalIpResult := .ok 0
          setWebhookOk := false, deleteWebhookOk := true }
        true (.host (strBytes "example.com")) none 443).error
        = some .runtimeError :=
  C5_registration_failure_stops_listener
    { getMeResult := .ok sampleBot, externalIpResult := .ok 0
      setWebhookOk := false, deleteWebhookOk := true }
    true (.host (strBytes "example.com")) none 443 sampleBot rfl rfl
    (by decide)

theorem rpartition2Single_eq_none (sep : Nat) (l : List Nat) (h : sep ∉ l) :
    afterLastByte.rpartition2Single sep l = none := by
  induction l with
  | nil => rfl
  | cons b rest ih =>
      simp only [afterLastByte.rpartition2Single]
      rw [ih (fun hm => h (List.mem_cons_of_mem _ hm))]
      exact if_neg (fun hb => h (List.mem_cons.mpr (Or.inl hb.symm)))

theorem afterLastByte_of_not_mem (sep : Nat) (l : List Nat) (h : sep ∉ l) :
    afterLastByte sep l = l := by
  unfold afterLastByte
  rw [rpartition2Single_eq_none sep l h]

theorem partitionByte_of_not_mem (sep : Nat) (l : List Nat) (h : sep ∉ l) :
    partitionByte sep l = (l, false, []) := by
  induction l with
  | nil => rfl
  | cons b rest ih =>
      simp only [partitionByte]
      rw [if_neg (fun hb => h (List.mem_cons.mpr (Or.inl hb.symm)))]
      simp [ih (fun hm => h (List.mem_cons_of_mem _ hm))]

theorem partitionByte_append_sep (sep : Nat) (pre post : List Nat)
    (h : ∀ b ∈ pre, b ≠ sep) :
    partitionByte sep (pre ++ sep :: post) = (pre, true, post) := by
  induction pre with
  | nil => simp [partitionByte]
  | cons b rest ih =>
      simp only [List.cons_append, partitionByte]
      rw [if_neg (h b (List.mem_cons_self _ _))]
      simp [ih (fun x hx => h x (List.mem_cons_of_mem _ hx))]

theorem splitOnByte_of_not_mem (sep : Nat) (l : List Nat) (h : sep ∉ l) :
    splitOnByte sep l = [l] := by
  induction l with
  | nil => rfl
  | cons b rest ih =>
      have hb : (b == sep) = false :=
        beq_eq_false_iff_ne.mpr (fun hb => h (hb ▸ List.mem_cons_self _ _))
      simp only [splitOnByte, splitOnPred] at ih ⊢
      rw [ih (fun hm => h (List.mem_cons_of_mem _ hm))]
      simp [hb]

theorem natToDecimalBytesGo_ne_nil (f : Nat) : ∀ (n : Nat) (acc : List Nat),
    acc ≠ [] → natToDecimalBytesGo f n acc ≠ [] := by
  induction f with
  | zero => intro n acc h; exact h
  | succ f ih =>
      intro n acc h
      simp only [natToDecimalBytesGo]
      split
      · simp
      · exact ih (n / 10) _ (by simp)

theorem natToDecimalBytes_ne_nil (n : Nat) : natToDecimalBytes n ≠ [] := by
  unfold natToDecimalBytes
  simp only [natToDecimalBytesGo]
  split
  · simp
  · exact natToDecimalBytesGo_ne_nil n (n / 10) _ (by simp)

theorem natToDecimalBytesGo_mem (f : Nat) : ∀ (n : Nat) (acc : List Nat),
    ∀ b ∈ natToDecimalBytesGo f n acc, b ∈ acc ∨ (48 ≤ b ∧ b ≤ 57) := by
  induction f with
  | zero => intro n acc b hb; exact Or.inl hb
  | succ f ih =>
      intro n acc b hb
      simp only [natToDecimalBytesGo] at hb
      split at hb
      · rcases List.mem_cons.mp hb with rfl | hm
        · right; constructor <;> omega
        · exact Or.inl hm
      · rcases ih (n / 10) _ b hb with hm | hr
        · rcases List.mem_cons.mp hm with rfl | hm'
          · right; constructor <;> omega
          · exact Or.inl hm'
        · exact Or.inr hr

theorem natToDecimalBytes_mem (n : Nat) : ∀ b ∈ natToDecimalBytes n,
    48 ≤ b ∧ b ≤ 57 := by
  intro b hb
  rcases natToDecimalBytesGo_mem (n + 1) n [] b hb with hm | hr
  · exact absurd hm (List.not_mem_nil b)
  · exact hr

theorem parse_webhook_plain_host (host : List Nat) (port : Nat)
    (hplain : ∀ b ∈ host, plainHostByte b = true) :
    _parse_webhook (.hostPort (.inl host) port)
      = .ok ⟨httpsBytes, host ++ 58 :: natToDecimalBytes port, [], [], []⟩ := by
  have hd := natToDecimalBytes_mem port
  have hplain' : ∀ b ∈ host,
      b ≠ 58 ∧ b ≠ 47 ∧ b ≠ 63 ∧ b ≠ 35 ∧ b ≠ 91 ∧ b ≠ 93 ∧ b ≠ 64 := by
    intro b hb
    have := hplain b hb
    simp [plainHostByte] at this
    omega
  have hno58 : ∀ b ∈ 47 :: 47 :: host, b ≠ 58 := by
    intro b hb
    rcases List.mem_cons.mp hb with rfl | hb
    · omega
    rcases List.mem_cons.mp hb with rfl | hb
    · omega
    · exact (hplain' b hb).1
  have hp : partitionByte 58 (47 :: 47 :: (host ++ 58 :: natToDecimalBytes port))
      = (47 :: 47 :: host, true, natToDecimalBytes port) := by
    have := partitionByte_append_sep 58 (47 :: 47 :: host)
      (natToDecimalBytes port) hno58
    simpa using this
  have htw : (host ++ 58 :: natToDecimalBytes port).takeWhile
      (fun b => !netlocDelim b) = host ++ 58 :: natToDecimalBytes port := by
    refine List.takeWhile_eq_self_iff.mpr ?_
    intro b hb
    rcases List.mem_append.mp hb with hm | hm
    · have := hplain' b hm
      simp [netlocDelim]
      omega
    · rcases List.mem_cons.mp hm with rfl | hm'
      · decide
      · have := hd b hm'
        simp [netlocDelim]
        omega
  have hdw : (host ++ 58 :: natToDecimalBytes port).dropWhile
      (fun b => !netlocDelim b) = [] := by
    refine List.dropWhile_eq_nil_iff.mpr ?_
    intro b hb
    rcases List.mem_append.mp hb with hm | hm
    · have := hplain' b hm
      simp [netlocDelim]
      omega
    · rcases List.mem_cons.mp hm with rfl | hm'
      · decide
      · have := hd b hm'
        simp [netlocDelim]
        omega
  have h91 : 91 ∉ host ++ 58 :: natToDecimalBytes port := by
    intro hm
    rcases List.mem_append.mp hm with hm' | hm'
    · exact absurd rfl (hplain' 91 hm').2.2.2.2.1
    · rcases List.mem_cons.mp hm' with he | hm''
      · omega
      · have := hd 91 hm''
        omega
  have h93 : 93 ∉ host ++ 58 :: natToDecimalBytes port := by
    intro hm
    rcases List.mem_append.mp hm with hm' | hm'
    · exact absurd rfl (hplain' 93 hm').2.2.2.2.2.1
    · rcases List.mem_cons.mp hm' with he | hm''
      · omega
      · have := hd 93 hm''
        omega
  have hraw : urlsplitRaw ([47, 47] ++ host ++ [58] ++ natToDecimalBytes port)
      httpsBytes = ⟨httpsBytes, host ++ 58 :: natToDecimalBytes port,
        [], [], []⟩ := by
    simp only [urlsplitRaw, List.cons_append, List.nil_append,
      List.append_assoc]
    rw [hp]
    simp [htw, hdw, isAlphaByte, partitionByte]
  simp only [_parse_webhook, urlsplitModel, hraw]
  simp [h91, h93]

theorem urlsplitModel_error_form (u d : List Nat) (e : PyErr)
    (h : urlsplitModel u d = .error e) : e = .valueError [] := by
  simp only [urlsplitModel] at h
  split at h
  · exact (Except.error.inj h).symm
  · simp at h

theorem port_error_form (u : SplitResult) (e : PyErr) (h : u.port = .error e) :
    e = .valueError [] := by
  simp only [SplitResult.port] at h
  split at h
  · simp at h
  · split at h
    · split at h
      · simp at h
      · exact (Except.error.inj h).symm
    · exact (Except.error.inj h).symm

theorem urljoinModel_error_form (a b : List Nat) (e : PyErr)
    (h : urljoinModel a b = .error e) : e = .valueError [] := by
  simp only [urljoinModel] at h
  split at h
  · simp at h
  · split at h
    · simp at h
    · split at h
      · next e' heq =>
          exact ((Except.error.inj h).symm).trans
            (urlsplitModel_error_form _ _ _ heq)
      · split at h
        · next e' heq =>
            exact ((Except.error.inj h).symm).trans
              (urlsplitModel_error_form _ _ _ heq)
        · split at h
          · simp at h
          · split at h
            · simp at h
            · split at h <;> simp at h

theorem parse_webhook_error_form (w : WebhookArg) (e : PyErr)
    (h : _parse_webhook w = .error e) : e = .valueError [] := by
  rcases w with s | ⟨host, port⟩ <;>
    exact urlsplitModel_error_form _ _ _ h

theorem set_webhook_error_form (webhook : WebhookArg) (token : List Nat)
    (ip : Option Nat) (cert : Option (List Nat)) (mc : Int)
    (au : Option (List (List Nat))) (e : PyErr)
    (h : set_webhook webhook token ip cert mc au = .error e) :
    ∃ m, e = .valueError m := by
  simp only [set_webhook] at h
  split at h
  · next heq => exact ⟨[], parse_webhook_error_form _ _
      ((Except.error.inj h) ▸ heq)⟩
  · split at h
    · exact ⟨[115], (Except.error.inj h).symm⟩
    · split at h
      · next heq => exact ⟨[], port_error_form _ _
          ((Except.error.inj h) ▸ heq)⟩
      · split at h
        · exact ⟨[112], (Except.error.inj h).symm⟩
        · split at h
          · exact ⟨[109], (Except.error.inj h).symm⟩
          · split at h
            · next heq => exact ⟨[], urljoinModel_error_form _ _ _
                ((Except.error.inj h) ▸ heq)⟩
            · split at h
              · split at h
                · exact ⟨[105], (Except.error.inj h).symm⟩
                · simp at h
              · simp at h

/-- C7: a `setWebhook` call whose target host is already a numeric IPv4
address and that also passes an explicit `ip_address` hint raises a
`ValueError` inside `set_webhook`, before `request_telegram` is ever
invoked (the model's network request exists only in the `.ok` result). -/
theorem C7_redundant_ip_hint_raises
    (webhook : WebhookArg) (token : List Nat) (ip : Nat)
    (cert : Option (List Nat)) (mc : Int) (au : Option (List (List Nat)))
    (url : SplitResult) (a : Nat)
    (hurl : _parse_webhook webhook = .ok url)
    (hhost : parseIPv4 (url.hostname.getD noneBytes) = some a) :
    ∃ m, set_webhook webhook token (some ip) cert mc au
      = .error (.valueError m) := by
  match hres : set_webhook webhook token (some ip) cert mc au with
  | .error e =>
      obtain ⟨m, hm⟩ := set_webhook_error_form _ _ _ _ _ _ _ hres
      exact ⟨m, by rw [hm]⟩
  | .ok r =>
      exfalso
      simp only [set_webhook, hurl] at hres
      split at hres
      · simp at hres
      · split at hres
        · simp at hres
        · split at hres
          · simp at hres
          · split at hres
            · simp at hres
            · split at hres
              · simp at hres
              · rw [hhost] at hres
                simp at hres

/-- C7 witness: registering the numeric target `1.2.3.4:443` together with
the redundant hint `ip_address=1.2.3.4` raises a `ValueError`. -/
theorem C7_witness :
    _parse_webhook (.hostPort (.inr (ipv4Val 1 2 3 4)) 443) = .ok parsedIpUrl ∧
    parseIPv4 (parsedIpUrl.hostname.getD noneBytes) = some (ipv4Val 1 2 3 4) ∧
    ∃ m, set_webhook (.hostPort (.inr (ipv4Val 1 2 3 4)) 443) sampleToken
      (some (ipv4Val 1 2 3 4)) none 10 none = .error (.valueError m) :=
  ⟨rfl, rfl,
    C7_redundant_ip_hint_raises _ sampleToken (ipv4Val 1 2 3 4) none 10 none
      parsedIpUrl (ipv4Val 1 2 3 4) rfl rfl⟩

/-- C8 counterexample: `set_webhook` with port 0. The port is present in
the URL (`urlsplit` parses it as `0`) and is not one of the allowed ports,
yet no `ValueError` is raised — `if url.port` treats the falsy port 0 as
absent — refuting the claim that a present port must be one of
443/80/88/8443. -/
theorem C8_counterexample_port_zero_not_validated :
    ∃ r, set_webhook (.hostPort (.inl (strBytes "example.com")) 0)
        sampleToken none none 10 none = .ok r ∧
      r.url.port = .ok (some 0) ∧
      ¬ (0 ∈ TELEGRAM_VALID_PORTS) :=
  ⟨_, rfl, rfl, by decide⟩

theorem port_8444_plain (host : List Nat)
    (hplain : ∀ b ∈ host, plainHostByte b = true) :
    SplitResult.port ⟨httpsBytes, host ++ 58 :: natToDecimalBytes 8444,
      [], [], []⟩ = .ok (some 8444) := by
  have hd : natToDecimalBytes 8444 = [56, 52, 52, 52] := rfl
  have hplain' : ∀ b ∈ host, b ≠ 58 ∧ b ≠ 91 ∧ b ≠ 64 := by
    intro b hb
    have := hplain b hb
    simp [plainHostByte] at this
    omega
  have h64 : (64 : Nat) ∉ host ++ 58 :: [56, 52, 52, 52] := by
    intro hm
    rcases List.mem_append.mp hm with hm' | hm'
    · exact absurd rfl (hplain' 64 hm').2.2
    · simp at hm'
  have h91 : (91 : Nat) ∉ host ++ 58 :: [56, 52, 52, 52] := by
    intro hm
    rcases List.mem_append.mp hm with hm' | hm'
    · exact absurd rfl (hplain' 91 hm').2.1
    · simp at hm'
  rw [hd]
  simp only [SplitResult.port, SplitResult.hostinfo]
  rw [afterLastByte_of_not_mem _ _ h64,
    partitionByte_of_not_mem 91 _ h91,
    partitionByte_append_sep 58 host _ (fun b hb => (hplain' b hb).1)]
  simp [isDigitByte]

/-- C8 (amended): for every `setWebhook` call that proceeds to the network
request, the target URL's scheme is `https` and its port is absent, zero,
or one of the allowed ports 443/80/88/8443 — port 0, being falsy, escapes
the validation that the claim states for every present port; and a call
with port 8444 and an ordinary hostname raises a `ValueError` before any
network request. -/
theorem C8_amended_scheme_and_nonzero_port_validated :
    (∀ webhook token ip cert mc au r,
      set_webhook webhook token ip cert mc au = .ok r →
        r.url.scheme = httpsBytes ∧
        (r.url.port = .ok none ∨ r.url.port = .ok (some 0) ∨
          ∃ p, r.url.port = .ok (some p) ∧ p ∈ TELEGRAM_VALID_PORTS)) ∧
    (∀ (host : List Nat) token ip cert mc au,
      (∀ b ∈ host, plainHostByte b = true) →
      ∃ m, set_webhook (.hostPort (.inl host) 8444) token ip cert mc au
        = .error (.valueError m)) := by
  constructor
  · intro webhook token ip cert mc au r hok
    simp only [set_webhook] at hok
    split at hok
    · simp at hok
    · next url heq =>
        split at hok
        · simp at hok
        · next hscheme =>
            split at hok
            · simp at hok
            · next port? hport =>
                split at hok
                · simp at hok
                · next hbad =>
                    split at hok
                    · simp at hok
                    · split at hok
                      · simp at hok
                      · next urlField hjoin =>
                          have hrurl : r.url = url := by
                            split at hok
                            · split at hok
                              · simp at hok
                              · obtain rfl := Except.ok.inj hok
                                rfl
                            · obtain rfl := Except.ok.inj hok
                              rfl
                          rw [hrurl]
                          refine ⟨by simpa using hscheme, ?_⟩
                          rw [hport]
                          rcases port? with _ | p
                          · exact Or.inl rfl
                          · by_cases hp0 : p = 0
                            · subst hp0
                              exact Or.inr (Or.inl rfl)
                            · refine Or.inr (Or.inr ⟨p, rfl, ?_⟩)
                              simp [hp0] at hbad
                              simpa using hbad
  · intro host token ip cert mc au hplain
    have hparse := parse_webhook_plain_host host 8444 hplain
    have hport := port_8444_plain host hplain
    refine ⟨[112], ?_⟩
    simp only [set_webhook, hparse, hport]
    rw [if_neg (by simp)]
    split
    · rfl
    · next hcond => exact absurd (by decide) hcond

/-- C8 witness: a normal registration on port 443 passes the validation
with an allowed port, and the same call on port 8444 raises before the
request. -/
theorem C8_witness :
    ∃ r, set_webhook (.hostPort (.inl (strBytes "example.com")) 443)
        sampleToken none none 10 none = .ok r ∧
      (r.url.scheme = httpsBytes ∧
        (r.url.port = .ok none ∨ r.url.port = .ok (some 0) ∨
          ∃ p, r.url.port = .ok (some p) ∧ p ∈ TELEGRAM_VALID_PORTS)) ∧
      ∃ m, set_webhook (.hostPort (.inl (strBytes "example.com")) 8444)
        sampleToken none none 10 none = .error (.valueError m) := by
  obtain ⟨r, hr⟩ : ∃ r, set_webhook
      (.hostPort (.inl (strBytes "example.com")) 443) sampleToken
      none none 10 none = .ok r := ⟨_, rfl⟩
  exact ⟨r, hr,
    C8_amended_scheme_and_nonzero_port_validated.1 _ _ _ _ _ _ r hr,
    C8_amended_scheme_and_nonzero_port_validated.2 (strBytes "example.com")
      sampleToken none none 10 none (by decide)⟩

theorem pctQuote_mem (t : List Nat) (b : Nat) (hb : b ∈ pctQuote t) :
    (b ∈ t ∧ quoteSafeByte b = true) ∨ b = 37 ∨ ∃ n, b = hexDigitByte n := by
  induction t with
  | nil => simp [pctQuote] at hb
  | cons x xs ih =>
      rw [pctQuote] at hb
      rcases List.mem_append.mp hb with hm | hm
      · split at hm
        · next hsafe =>
            rcases List.mem_singleton.mp hm with rfl
            exact Or.inl ⟨List.mem_cons_self _ _, hsafe⟩
        · rcases List.mem_cons.mp hm with rfl | hm'
          · exact Or.inr (Or.inl rfl)
          · rcases List.mem_cons.mp hm' with rfl | hm''
            · exact Or.inr (Or.inr ⟨x / 16, rfl⟩)
            · rcases List.mem_singleton.mp hm'' with rfl
              exact Or.inr (Or.inr ⟨x % 16, rfl⟩)
      · rcases ih hm with ⟨hmem, hsafe⟩ | hr
        · exact Or.inl ⟨List.mem_cons_of_mem _ hmem, hsafe⟩
        · exact Or.inr hr

theorem hexDigitByte_not_delim (n : Nat) :
    hexDigitByte n ≠ 47 ∧ hexDigitByte n ≠ 58 ∧ hexDigitByte n ≠ 35 ∧
      hexDigitByte n ≠ 63 := by
  unfold hexDigitByte
  split <;> (constructor <;> [omega; constructor] <;> [omega; constructor] <;> omega)

theorem pctQuote_eq_nil (t : List Nat) (h : pctQuote t = []) : t = [] := by
  cases t with
  | nil => rfl
  | cons b bs =>
      rw [pctQuote] at h
      split at h <;> simp at h

theorem pctQuote_ne_nil (t : List Nat) (h : t ≠ []) : pctQuote t ≠ [] :=
  fun hq => h (pctQuote_eq_nil t hq)

theorem pctQuote_eq_dot (t : List Nat) (h : pctQuote t = [46]) : t = [46] := by
  cases t with
  | nil => simp [pctQuote] at h
  | cons b bs =>
      rw [pctQuote] at h
      split at h
      · next hsafe =>
          simp only [List.singleton_append, List.cons.injEq] at h
          rw [h.1, pctQuote_eq_nil bs h.2]
      · simp at h

theorem pctQuote_eq_dotdot (t : List Nat) (h : pctQuote t = [46, 46]) :
    t = [46, 46] := by
  cases t with
  | nil => simp [pctQuote] at h
  | cons b bs =>
      rw [pctQuote] at h
      split at h
      · next hsafe =>
          simp only [List.singleton_append, List.cons.injEq] at h
          rw [h.1, pctQuote_eq_dot bs h.2]
      · next hsafe =>
          simp only [List.cons_append, List.nil_append, List.cons.injEq] at h
          omega

theorem pctQuote_no_delim (token : List Nat) (hslash : 47 ∉ token) :
    47 ∉ pctQuote token ∧ 58 ∉ pctQuote token ∧ 35 ∉ pctQuote token ∧
      63 ∉ pctQuote token := by
  refine ⟨?_, ?_, ?_, ?_⟩ <;>
    intro hm <;>
    rcases pctQuote_mem token _ hm with ⟨hmem, hsafe⟩ | h37 | ⟨n, hn⟩
  · exact hslash hmem
  · omega
  · exact absurd hn.symm (hexDigitByte_not_delim n).1
  · simp [quoteSafeByte, isAlwaysSafeByte] at hsafe
  · omega
  · exact absurd hn.symm (hexDigitByte_not_delim n).2.1
  · simp [quoteSafeByte, isAlwaysSafeByte] at hsafe
  · omega
  · exact absurd hn.symm (hexDigitByte_not_delim n).2.2.1
  · simp [quoteSafeByte, isAlwaysSafeByte] at hsafe
  · omega
  · exact absurd hn.symm (hexDigitByte_not_delim n).2.2.2

theorem handleParsedBody_no_404 (bot : User) (impl : Callback)
    (st : HandlerState) (body : Except Unit Update) :
    HttpEvent.sendError 404 ∉ (handleParsedBody bot impl st body).1 := by
  rcases body with ⟨⟩ | update <;> simp only [handleParsedBody]
  · simp
  · split
    · simp
    · rcases himpl : impl bot update with ⟨⟩ | _ | res <;> simp only [himpl]
      · simp
      · simp
      · rcases hser : res.serialized with ⟨⟩ | data <;> simp only [hser] <;> simp

theorem urlsplitModel_base_plain (netloc : List Nat)
    (hnd : ∀ b ∈ netloc, (!netlocDelim b) = true)
    (h91 : 91 ∉ netloc) (h93 : 93 ∉ netloc) :
    urlsplitModel (httpsBytes ++ 58 :: 47 :: 47 :: netloc) []
      = .ok ⟨httpsBytes, netloc, [], [], []⟩ := by
  have hp : partitionByte 58 (httpsBytes ++ 58 :: 47 :: 47 :: netloc)
      = (httpsBytes, true, 47 :: 47 :: netloc) :=
    partitionByte_append_sep 58 httpsBytes _ (by decide)
  have htw : List.takeWhile (fun b => !netlocDelim b) netloc = netloc :=
    List.takeWhile_eq_self_iff.mpr hnd
  have hdw : List.dropWhile (fun b => !netlocDelim b) netloc = [] :=
    List.dropWhile_eq_nil_iff.mpr hnd
  have hraw : urlsplitRaw (httpsBytes ++ 58 :: 47 :: 47 :: netloc) []
      = ⟨httpsBytes, netloc, [], [], []⟩ := by
    simp only [urlsplitRaw]
    rw [hp]
    simp [htw, hdw, isAlphaByte, schemeCharByte, lowerByte, partitionByte,
      httpsBytes]
  simp only [urlsplitModel, hraw]
  simp [h91, h93]

theorem urlsplitModel_rel_plain (rel : List Nat) (hrne : rel ≠ [])
    (hr47 : 47 ∉ rel) (hr58 : 58 ∉ rel) (hr35 : 35 ∉ rel) (hr63 : 63 ∉ rel) :
    urlsplitModel rel httpsBytes = .ok ⟨httpsBytes, [], rel, [], []⟩ := by
  have hp := partitionByte_of_not_mem 58 rel hr58
  have htake : rel.take 2 ≠ [47, 47] := by
    cases rel with
    | nil => simp
    | cons b bs =>
        intro hcon
        simp only [List.take_succ_cons] at hcon
        exact hr47 (by rw [List.cons.injEq] at hcon
                       exact hcon.1 ▸ List.mem_cons_self _ _)
  have hraw : urlsplitRaw rel httpsBytes = ⟨httpsBytes, [], rel, [], []⟩ := by
    simp only [urlsplitRaw]
    rw [hp]
    simp [htake, partitionByte_of_not_mem 35 rel hr35,
      partitionByte_of_not_mem 63 rel hr63]
  simp only [urlsplitModel, hraw]
  simp

theorem urljoin_plain (netloc rel : List Nat)
    (hnet : netloc ≠ [])
    (hnd : ∀ b ∈ netloc, (!netlocDelim b) = true)
    (h91 : 91 ∉ netloc) (h93 : 93 ∉ netloc)
    (hrne : rel ≠ []) (hr47 : 47 ∉ rel) (hr58 : 58 ∉ rel)
    (hr35 : 35 ∉ rel) (hr63 : 63 ∉ rel)
    (hrd : rel ≠ [46]) (hrdd : rel ≠ [46, 46]) :
    urljoinModel (httpsBytes ++ 58 :: 47 :: 47 :: netloc) rel
      = .ok (httpsBytes ++ 58 :: 47 :: 47 :: (netloc ++ 47 :: rel)) := by
  have hbase := urlsplitModel_base_plain netloc hnd h91 h93
  have hrel := urlsplitModel_rel_plain rel hrne hr47 hr58 hr35 hr63
  have hrelEmpty : rel.isEmpty = false := by
    cases rel
    · exact absurd rfl hrne
    · rfl
  have hrhead : ¬ (rel.head? = some 47) := by
    cases rel with
    | nil => simp
    | cons b bs =>
        simp only [List.head?_cons, Option.some.injEq]
        intro hb
        exact hr47 (hb ▸ List.mem_cons_self _ _)
  have hsplit47 : splitOnByte 47 rel = [rel] := splitOnByte_of_not_mem 47 rel hr47
  have hnetEmpty : netloc.isEmpty = false := by
    cases netloc
    · exact absurd rfl hnet
    · rfl
  simp only [urljoinModel]
  rw [if_neg (by simp [httpsBytes]), if_neg (by simp [hrelEmpty])]
  rw [hbase]
  simp only []
  rw [hrel]
  simp only []
  rw [if_neg (by simp [usesRelative, httpsBytes])]
  rw [if_neg (by simp)]
  rw [if_neg (by simp [hrelEmpty])]
  rw [if_neg hrhead]
  have h0 : splitOnByte 47 ([] : List Nat) = [[]] := rfl
  simp [hsplit47, h0, resolveSegments, joinSlash, urlunsplit, hnetEmpty,
    hrd, hrdd, hrelEmpty, usesNetloc, usesRelative, httpsBytes]

/-- C10 counterexample: for the bot token `"/"`, the URL that
`set_webhook` announces has path `/`, not `/` followed by the
percent-encoded token (`//`): `quote` keeps `/` unescaped and `urljoin`
treats a leading slash as an absolute path, so the claim fails for this
token. -/
theorem C10_counterexample_slash_token :
    ∃ r u, set_webhook (.hostPort (.inl (strBytes "example.com")) 443) [47]
        none none 10 none = .ok r ∧
      urlsplitModel r.urlField [] = .ok u ∧
      u.path = [47] ∧
      47 :: pctQuote [47] = [47, 47] ∧
      u.path ≠ 47 :: pctQuote [47] := by
  refine ⟨_, _, rfl, rfl, rfl, rfl, by decide⟩

/-- C10 (amended): for every non-empty bot token that contains no `/` byte
and is not `.` or `..`, registered through a host-port target with an
ordinary hostname: the `url` form field `registerEndpoint` announces is the
target URL with path `/` + `quote(token)`; percent-decoding that path gives
`/` + token, which is exactly the handler's routing comparison, so a POST
whose raw path is the announced path reaches the delivery endpoint while
every POST whose percent-decoded path differs from `/` + token gets 404. -/
theorem C10_amended_registered_path_roundtrip
    (token host : List Nat) (port : Nat) (ip : Option Nat)
    (cert : Option (List Nat)) (mc : Int) (au : Option (List (List Nat)))
    (r : SetWebhookRequest)
    (htok : ∀ b ∈ token, b < 256)
    (htokne : token ≠ []) (hslash : 47 ∉ token)
    (hdot : token ≠ [46]) (hddot : token ≠ [46, 46])
    (hplain : ∀ b ∈ host, plainHostByte b = true)
    (hok : set_webhook (.hostPort (.inl host) port) token ip cert mc au
      = .ok r) :
    r.urlField = httpsBytes ++ 58 :: 47 :: 47 ::
        ((host ++ 58 :: natToDecimalBytes port) ++ 47 :: pctQuote token) ∧
    pctUnquote (47 :: pctQuote token) = 47 :: token ∧
    (∀ bot impl st req debug, pctUnquote req.path ≠ 47 :: token →
      do_POST bot token impl st req debug = .ok ([.sendError 404], st)) ∧
    (∀ bot impl st fw sp body debug,
      do_POST bot token impl st ⟨47 :: pctQuote token, fw, sp, body⟩ debug
        ≠ .ok ([.sendError 404], st)) := by
  have hround : pctUnquote (47 :: pctQuote token) = 47 :: token := by
    rw [pctUnquote_cons_ne 47 _ (by omega), pctUnquote_pctQuote token htok]
  have hparse := parse_webhook_plain_host host port hplain
  have hd := natToDecimalBytes_mem port
  have hplain' : ∀ b ∈ host,
      b ≠ 58 ∧ b ≠ 47 ∧ b ≠ 63 ∧ b ≠ 35 ∧ b ≠ 91 ∧ b ≠ 93 ∧ b ≠ 64 := by
    intro b hb
    have := hplain b hb
    simp [plainHostByte] at this
    omega
  have hnd : ∀ b ∈ host ++ 58 :: natToDecimalBytes port,
      (!netlocDelim b) = true := by
    intro b hb
    rcases List.mem_append.mp hb with hm | hm
    · have := hplain' b hm
      simp [netlocDelim]
      omega
    · rcases List.mem_cons.mp hm with rfl | hm'
      · decide
      · have := hd b hm'
        simp [netlocDelim]
        omega
  have h91 : 91 ∉ host ++ 58 :: natToDecimalBytes port := by
    intro hm
    rcases List.mem_append.mp hm with hm' | hm'
    · exact absurd rfl (hplain' 91 hm').2.2.2.2.1
    · rcases List.mem_cons.mp hm' with he | hm''
      · omega
      · have := hd 91 hm''
        omega
  have h93 : 93 ∉ host ++ 58 :: natToDecimalBytes port := by
    intro hm
    rcases List.mem_append.mp hm with hm' | hm'
    · exact absurd rfl (hplain' 93 hm').2.2.2.2.2.1
    · rcases List.mem_cons.mp hm' with he | hm''
      · omega
      · have := hd 93 hm''
        omega
  have hq := pctQuote_no_delim token hslash
  have hjoin := urljoin_plain (host ++ 58 :: natToDecimalBytes port)
    (pctQuote token) (by simp) hnd h91 h93
    (pctQuote_ne_nil token htokne) hq.1 hq.2.1 hq.2.2.1 hq.2.2.2
    (fun h => hdot (pctQuote_eq_dot token h))
    (fun h => hddot (pctQuote_eq_dotdot token h))
  have huns : urlunsplit ⟨httpsBytes, host ++ 58 :: natToDecimalBytes port,
      [], [], []⟩ = httpsBytes ++ 58 :: 47 :: 47 ::
        (host ++ 58 :: natToDecimalBytes port) := by
    simp [urlunsplit, httpsBytes]
  have hfield : r.urlField = httpsBytes ++ 58 :: 47 :: 47 ::
      ((host ++ 58 :: natToDecimalBytes port) ++ 47 :: pctQuote token) := by
    simp only [set_webhook, hparse] at hok
    rw [if_neg (by simp)] at hok
    split at hok
    · simp at hok
    · next port? hport =>
        split at hok
        · simp at hok
        · split at hok
          · simp at hok
          · rw [huns, hjoin] at hok
            split at hok
            · next e heq => simp at heq
            · next urlField heq =>
                obtain rfl := Except.ok.inj heq
                split at hok
                · split at hok
                  · simp at hok
                  · obtain rfl := Except.ok.inj hok
                    rfl
                · obtain rfl := Except.ok.inj hok
                  rfl
  refine ⟨hfield, hround, ?_, ?_⟩
  · intro bot impl st req debug h
    simp only [do_POST, if_pos h]
  · intro bot impl st fw sp body debug hcon
    simp only [do_POST] at hcon
    rw [if_neg (by simp [hround])] at hcon
    split at hcon
    · next a heq =>
        simp only [handleWithAddress, Except.ok.injEq, Prod.mk.injEq] at hcon
        have hmem : HttpEvent.sendError 404 ∈
            (if (TELEGRAM_SUBNETS debug).any (fun n => inNetwork a n) then
              ([] : List HttpEvent) else [.logWarn]) ++
              (handleParsedBody bot impl st body).1 := by
          rw [hcon.1]
          simp
        rcases List.mem_append.mp hmem with hm | hm
        · split at hm <;> simp at hm
        · exact handleParsedBody_no_404 bot impl st body hm
    · simp at hcon
    · simp at hcon

/-- C10 witness: for the token `123:ABC` and host `example.com`, the
announced path is `/123%3AABC` and decodes back to `/123:ABC`. -/
theorem C10_witness :
    ∃ r, set_webhook (.hostPort (.inl (strBytes "example.com")) 443)
        (strBytes "123:ABC") none none 10 none = .ok r ∧
      r.urlField = httpsBytes ++ 58 :: 47 :: 47 ::
        ((strBytes "example.com" ++ 58 :: natToDecimalBytes 443) ++
          47 :: pctQuote (strBytes "123:ABC")) ∧
      pctUnquote (47 :: pctQuote (strBytes "123:ABC"))
        = 47 :: strBytes "123:ABC" := by
  obtain ⟨r, hr⟩ : ∃ r, set_webhook
      (.hostPort (.inl (strBytes "example.com")) 443) (strBytes "123:ABC")
      none none 10 none = .ok r := ⟨_, rfl⟩
  have h := C10_amended_registered_path_roundtrip (strBytes "123:ABC")
    (strBytes "example.com") 443 none none 10 none r
    (by decide) (by decide) (by decide) (by decide) (by decide) (by decide) hr
  exact ⟨r, hr, h.1, h.2.1⟩

end Tghook
